import Mathlib

/-!
# ChatDelta-Electron: credential lookup, provider clients and prompt fan-out

A shallow embedding of `src/main.js` (the IPC handlers and the three provider
clients of the main process) and of `src/renderer.js` (the prompt dispatch of
the window), followed by the properties proved about them.

JavaScript values are embedded as `JSVal`; a function that may throw returns
`Except JSError _`; the outside world a handler talks to (`process.env`,
`fetch`, number formatting) is the explicit argument `Host`.
-/

namespace ChatDelta

/-! ## JavaScript values -/

/-- Exceptions: `new Error(message)` and the two runtime errors that the
program can meet (`TypeError` on a property read of `undefined`/`null`, on a
missing method and on a failed `fetch`; `SyntaxError` from `response.json()`). -/
inductive JSError where
  | error (message : String)
  | typeError (message : String)
  | syntaxError (message : String)
deriving DecidableEq, Repr

/-- The `message` property of an error object. -/
def JSError.message : JSError → String
  | .error m => m
  | .typeError m => m
  | .syntaxError m => m

/-- The `name` property of an error object. -/
def JSError.name : JSError → String
  | .error _ => "Error"
  | .typeError _ => "TypeError"
  | .syntaxError _ => "SyntaxError"

/-- Result of `String(error)`: name, colon, message. -/
def JSError.toString (e : JSError) : String :=
  e.name ++ ": " ++ e.message

/-- The values that travel through `process.env`, JSON bodies and IPC
messages. A number carries the value of its JSON literal. -/
inductive JSVal where
  | undefined
  | null
  | bool (b : Bool)
  | num (q : ℚ)
  | str (s : String)
  | arr (items : List JSVal)
  | obj (fields : List (String × JSVal))

/-- Truthiness, as tested by `!x`, `x || y`, `x && y` and `if (x)`. -/
def JSVal.truthy : JSVal → Bool
  | .undefined => false
  | .null => false
  | .bool b => b
  | .num q => decide (q ≠ 0)
  | .str s => decide (s ≠ "")
  | .arr _ => true
  | .obj _ => true

/-- The operator `a || b`: the left operand when it is truthy, else the right one. -/
def jsOr (a b : JSVal) : JSVal :=
  if a.truthy then a else b

/-- Property read `v.name` for the property names this program reads
(`choices`, `message`, `content`, `text`, `candidates`, `parts`, `keys`,
`chatgpt`, `claude`, `gemini`), none of which is defined on a built-in
prototype: a `TypeError` on `undefined` and `null`, the field of an object,
`undefined` on every other value. -/
def JSVal.getProp (v : JSVal) (name : String) : Except JSError JSVal :=
  match v with
  | .undefined =>
    .error (.typeError ("Cannot read properties of undefined (reading '" ++ name ++ "')"))
  | .null =>
    .error (.typeError ("Cannot read properties of null (reading '" ++ name ++ "')"))
  | .obj fields => .ok ((fields.lookup name).getD .undefined)
  | _ => .ok .undefined

/-- Indexed read `v[i]`: the element of an array, the character of a string
(characters outside the basic plane, which JavaScript splits in two, are kept
whole), the field named by the index of an object. -/
def JSVal.getIndex (v : JSVal) (i : Nat) : Except JSError JSVal :=
  match v with
  | .undefined =>
    .error (.typeError ("Cannot read properties of undefined (reading '" ++ toString i ++ "')"))
  | .null =>
    .error (.typeError ("Cannot read properties of null (reading '" ++ toString i ++ "')"))
  | .arr items => .ok (items.getD i .undefined)
  | .str s =>
    match s.data.get? i with
    | some c => .ok (.str (String.singleton c))
    | none => .ok .undefined
  | .obj fields => .ok ((fields.lookup (toString i)).getD .undefined)
  | _ => .ok .undefined

/-- Property write `o[name] = value` on an object: an existing field is
replaced in place, a new one is appended. -/
def setField (name : String) (value : JSVal) : List (String × JSVal) → List (String × JSVal)
  | [] => [(name, value)]
  | (k, v) :: rest =>
    if k = name then (k, value) :: rest else (k, v) :: setField name value rest

/-- Property write `o[name] = value`; only objects are written to by the program. -/
def JSVal.setProp (o : JSVal) (name : String) (value : JSVal) : JSVal :=
  match o with
  | .obj fields => .obj (setField name value fields)
  | v => v

/-- Value of `Object.keys(o).length` for an object. -/
def JSVal.keyCount : JSVal → Nat
  | .obj fields => fields.length
  | .arr items => items.length
  | .str s => s.length
  | _ => 0

mutual
/-- String conversion of a template literal `${v}`. Numbers are printed by
the runtime's number formatting, passed as `numStr`. -/
def JSVal.toJSString (numStr : ℚ → String) : JSVal → String
  | .undefined => "undefined"
  | .null => "null"
  | .bool true => "true"
  | .bool false => "false"
  | .num q => numStr q
  | .str s => s
  | .arr items => JSVal.joinItems numStr items
  | .obj _ => "[object Object]"
/-- Array conversion `items.join(",")`: `undefined` and `null` print as the empty string. -/
def JSVal.joinItems (numStr : ℚ → String) : List JSVal → String
  | [] => ""
  | .undefined :: [] => ""
  | .null :: [] => ""
  | x :: [] => JSVal.toJSString numStr x
  | .undefined :: y :: rest => "," ++ JSVal.joinItems numStr (y :: rest)
  | .null :: y :: rest => "," ++ JSVal.joinItems numStr (y :: rest)
  | x :: y :: rest => JSVal.toJSString numStr x ++ "," ++ JSVal.joinItems numStr (y :: rest)
end

/-! ## The main process (`src/main.js`) -/

/-- An HTTP response as the clients read it: `status`, the body read by
`response.text()`, and the body decoded by `response.json()` (`none` when the
body is not JSON, in which case `response.json()` rejects). -/
structure Response where
  status : Nat
  text : String
  json : Option JSVal

/-- The property `response.ok` of the Fetch API: the status is in 200..299. -/
def Response.ok (r : Response) : Bool :=
  decide (200 ≤ r.status) && decide (r.status ≤ 299)

/-- A request handed to `fetch`: the URL and the `method`, `headers` and
`body` of its options; `body` is the value given to `JSON.stringify`. -/
structure Request where
  url : String
  method : String
  headers : List (String × String)
  body : JSVal

/-- Outcome of `await fetch(...)`: the promise rejects with a `TypeError` on a
network failure, and resolves to a response otherwise. -/
inductive FetchResult where
  | networkError (message : String)
  | response (r : Response)

/-- What the main process reads from outside: `process.env`, the transport
behind `fetch`, and the runtime's number formatting. -/
structure Host where
  env : String → Option String
  fetch : Request → FetchResult
  numStr : ℚ → String

/-- Value of `process.env.NAME`: a string, or `undefined` when the variable is not set. -/
def Host.getenv (host : Host) (name : String) : JSVal :=
  match host.env name with
  | some s => .str s
  | none => .undefined

/-- What one run of a handler or client did: the requests it handed to
`fetch`, oldest first, and the value it returned or the error it threw. -/
structure Call where
  fetched : List Request
  result : Except JSError JSVal

/-- Handler of `'get-api-keys'` (main.js 43-71). -/
def getApiKeys (host : Host) : JSVal :=
  let chatgptKey :=
    jsOr (jsOr (jsOr (host.getenv "OPENAI_API_KEY") (host.getenv "CHATGPT_API_KEY"))
      (host.getenv "GPT_API_KEY")) (host.getenv "OPENAI_KEY")
  let claudeKey :=
    jsOr (jsOr (jsOr (host.getenv "ANTHROPIC_API_KEY") (host.getenv "CLAUDE_API_KEY"))
      (host.getenv "ANTHROPIC_KEY")) (host.getenv "CLAUDE_KEY")
  let geminiKey :=
    jsOr (jsOr (jsOr (host.getenv "GOOGLE_API_KEY") (host.getenv "GEMINI_API_KEY"))
      (host.getenv "GOOGLE_GEMINI_KEY")) (host.getenv "GEMINI_KEY")
  .obj [("chatgpt", .bool chatgptKey.truthy),
        ("claude", .bool claudeKey.truthy),
        ("gemini", .bool geminiKey.truthy),
        ("keys", .obj [("chatgpt", chatgptKey), ("claude", claudeKey), ("gemini", geminiKey)])]

/-- Client `sendToChatGPT` (main.js 135-159). -/
def sendToChatGPT (host : Host) (prompt : String) (apiKey : JSVal) : Call :=
  if !apiKey.truthy then
    { fetched := [], result := .error (.error "OpenAI API key not found") }
  else
    let request : Request :=
      { url := "https://api.openai.com/v1/chat/completions"
        method := "POST"
        headers := [("Content-Type", "application/json"),
                    ("Authorization", "Bearer " ++ apiKey.toJSString host.numStr)]
        body := .obj [("model", .str "gpt-3.5-turbo"),
                      ("messages", .arr [.obj [("role", .str "user"), ("content", .str prompt)]]),
                      ("temperature", .num (7 / 10)),
                      ("max_tokens", .num 1000)] }
    { fetched := [request]
      result :=
        match host.fetch request with
        | .networkError m => .error (.typeError m)
        | .response response =>
          if !response.ok then
            .error (.error ("OpenAI API error: " ++ toString response.status ++ " - "
              ++ response.text))
          else
            match response.json with
            | none => .error (.syntaxError "Unexpected token in JSON")
            | some data => do
              let choices ← data.getProp "choices"
              let first ← choices.getIndex 0
              let message ← first.getProp "message"
              message.getProp "content" }

/-- Client `sendToClaude` (main.js 161-185). -/
def sendToClaude (host : Host) (prompt : String) (apiKey : JSVal) : Call :=
  if !apiKey.truthy then
    { fetched := [], result := .error (.error "Anthropic API key not found") }
  else
    let request : Request :=
      { url := "https://api.anthropic.com/v1/messages"
        method := "POST"
        headers := [("Content-Type", "application/json"),
                    ("x-api-key", apiKey.toJSString host.numStr),
                    ("anthropic-version", "2023-06-01")]
        body := .obj [("model", .str "claude-3-haiku-20240307"),
                      ("max_tokens", .num 1000),
                      ("messages", .arr [.obj [("role", .str "user"), ("content", .str prompt)]])] }
    { fetched := [request]
      result :=
        match host.fetch request with
        | .networkError m => .error (.typeError m)
        | .response response =>
          if !response.ok then
            .error (.error ("Anthropic API error: " ++ toString response.status ++ " - "
              ++ response.text))
          else
            match response.json with
            | none => .error (.syntaxError "Unexpected token in JSON")
            | some data => do
              let content ← data.getProp "content"
              let first ← content.getIndex 0
              first.getProp "text" }

/-- Client `sendToGemini` (main.js 187-218). -/
def sendToGemini (host : Host) (prompt : String) (apiKey : JSVal) : Call :=
  if !apiKey.truthy then
    { fetched := [], result := .error (.error "Google API key not found") }
  else
    let request : Request :=
      { url := "https://generativelanguage.googleapis.com/v1beta/models/gemini-1.5-flash:generateContent?key="
          ++ apiKey.toJSString host.numStr
        method := "POST"
        headers := [("Content-Type", "application/json")]
        body := .obj [("contents", .arr [.obj [("parts", .arr [.obj [("text", .str prompt)]])]]),
                      ("generationConfig",
                        .obj [("temperature", .num (7 / 10)), ("maxOutputTokens", .num 1000)])] }
    { fetched := [request]
      result :=
        match host.fetch request with
        | .networkError m => .error (.typeError m)
        | .response response =>
          if !response.ok then
            .error (.error ("Google API error: " ++ toString response.status ++ " - "
              ++ response.text))
          else
            match response.json with
            | none => .error (.syntaxError "Unexpected token in JSON")
            | some data => do
              let candidates ← data.getProp "candidates"
              if !candidates.truthy then
                .error (.error "Invalid response from Gemini API")
              else do
                let first ← candidates.getIndex 0
                if !first.truthy then
                  .error (.error "Invalid response from Gemini API")
                else do
                  let content ← first.getProp "content"
                  let parts ← content.getProp "parts"
                  let part ← parts.getIndex 0
                  part.getProp "text" }

/-- Handler of `'send-to-ai'` (main.js 74-106); its `catch` logs the error and rethrows it. -/
def sendToAi (host : Host) (provider : String) (prompt : String) : Call :=
  let chatgptKey :=
    jsOr (jsOr (jsOr (host.getenv "OPENAI_API_KEY") (host.getenv "CHATGPT_API_KEY"))
      (host.getenv "GPT_API_KEY")) (host.getenv "OPENAI_KEY")
  let claudeKey :=
    jsOr (jsOr (jsOr (host.getenv "ANTHROPIC_API_KEY") (host.getenv "CLAUDE_API_KEY"))
      (host.getenv "ANTHROPIC_KEY")) (host.getenv "CLAUDE_KEY")
  let geminiKey :=
    jsOr (jsOr (jsOr (host.getenv "GOOGLE_API_KEY") (host.getenv "GEMINI_API_KEY"))
      (host.getenv "GOOGLE_GEMINI_KEY")) (host.getenv "GEMINI_KEY")
  if provider = "chatgpt" then sendToChatGPT host prompt chatgptKey
  else if provider = "claude" then sendToClaude host prompt claudeKey
  else if provider = "gemini" then sendToGemini host prompt geminiKey
  else { fetched := [], result := .error (.error ("Unknown provider: " ++ provider)) }

/-- First line of the comparison prompt (main.js 117). -/
def deltaHeader : String :=
  "Analyze the differences between these AI responses and provide a succinct summary of their key differences:"

/-- Last line of the comparison prompt (main.js 125). -/
def deltaFooter : String :=
  "Please highlight the main differences in approach, content, style, and any unique insights each provided."

/-- The template literal `prompt` of the `'analyze-delta'` handler (main.js 117-125). -/
def deltaPrompt (numStr : ℚ → String) (responses : JSVal) : Except JSError String := do
  let chatgpt ← responses.getProp "chatgpt"
  let claude ← responses.getProp "claude"
  let gemini ← responses.getProp "gemini"
  pure (deltaHeader ++ "\n\nChatGPT: " ++ (jsOr chatgpt (.str "No response")).toJSString numStr
    ++ "\n\nClaude: " ++ (jsOr claude (.str "No response")).toJSString numStr
    ++ "\n\nGemini: " ++ (jsOr gemini (.str "No response")).toJSString numStr
    ++ "\n\n" ++ deltaFooter)

/-- Handler of `'analyze-delta'` (main.js 109-132); its `catch` logs the error and rethrows it. -/
def analyzeDeltaHandler (host : Host) (responses : JSVal) : Call :=
  let geminiKey :=
    jsOr (jsOr (jsOr (host.getenv "GOOGLE_API_KEY") (host.getenv "GEMINI_API_KEY"))
      (host.getenv "GOOGLE_GEMINI_KEY")) (host.getenv "GEMINI_KEY")
  match deltaPrompt host.numStr responses with
  | .error e => { fetched := [], result := .error e }
  | .ok prompt => sendToGemini host prompt geminiKey

/-- The three messages the window sends with `ipcRenderer.invoke`. -/
inductive IpcRequest where
  | getApiKeys
  | sendToAi (provider : String) (prompt : String)
  | analyzeDelta (responses : JSVal)

/-- Channel name of a message. -/
def IpcRequest.channel : IpcRequest → String
  | .getApiKeys => "get-api-keys"
  | .sendToAi _ _ => "send-to-ai"
  | .analyzeDelta _ => "analyze-delta"

/-- The handlers registered with `ipcMain.handle`, by channel. -/
def ipcMain (host : Host) : IpcRequest → Call
  | .getApiKeys => { fetched := [], result := .ok (getApiKeys host) }
  | .sendToAi provider prompt => sendToAi host provider prompt
  | .analyzeDelta responses => analyzeDeltaHandler host responses

/-- What `await ipcRenderer.invoke(...)` gives the window: the handler's
value, or, when the handler threw, an `Error` whose message is Electron's
wrapping of the handler's error. -/
def ipcInvoke (host : Host) (request : IpcRequest) : Except JSError JSVal :=
  match (ipcMain host request).result with
  | .ok v => .ok v
  | .error e =>
    .error (.error ("Error invoking remote method '" ++ request.channel ++ "': " ++ e.toString))

/-! ## Providers and the credential table of the specification -/

/-- The three providers. -/
inductive Provider where
  | chatgpt
  | claude
  | gemini
deriving DecidableEq, Repr

/-- The identifier of a provider, as used in IPC messages, in the object
returned by `'get-api-keys'` and as key of the response collection. -/
def Provider.name : Provider → String
  | .chatgpt => "chatgpt"
  | .claude => "claude"
  | .gemini => "gemini"

/-- The table of the specification (section 6): the environment variables of
each provider, in the order they are checked. -/
def lookupKeys : Provider → List String
  | .chatgpt => ["OPENAI_API_KEY", "CHATGPT_API_KEY", "GPT_API_KEY", "OPENAI_KEY"]
  | .claude => ["ANTHROPIC_API_KEY", "CLAUDE_API_KEY", "ANTHROPIC_KEY", "CLAUDE_KEY"]
  | .gemini => ["GOOGLE_API_KEY", "GEMINI_API_KEY", "GOOGLE_GEMINI_KEY", "GEMINI_KEY"]

/-- The resolver of the specification (section 4.1): the value of the first
name of the list whose value is a non-empty string, `none` when there is none. -/
def firstNonEmpty (env : String → Option String) : List String → Option String
  | [] => none
  | name :: rest =>
    match env name with
    | some s => if s ≠ "" then some s else firstNonEmpty env rest
    | none => firstNonEmpty env rest

/-- The credential `keys[p]` in the object returned by `'get-api-keys'`. -/
def reportedKey (host : Host) (p : Provider) : Except JSError JSVal := do
  let keys ← (getApiKeys host).getProp "keys"
  keys.getProp p.name

/-- The availability flag `keyData[p]` in the object returned by `'get-api-keys'`. -/
def reportedFlag (host : Host) (p : Provider) : Except JSError JSVal :=
  (getApiKeys host).getProp p.name

/-- The message of the error a client throws when it is given no key
(main.js 136, 162, 188). -/
def missingKeyMessage : Provider → String
  | .chatgpt => "OpenAI API key not found"
  | .claude => "Anthropic API key not found"
  | .gemini => "Google API key not found"

/-- The text of a provider's section in the comparison prompt: the recorded
value when it is truthy (a non-empty string is printed as it is), the
placeholder when the provider has no entry or a falsy one (the empty string). -/
def sectionText (numStr : ℚ → String) (fields : List (String × JSVal)) (p : Provider) : String :=
  match fields.lookup p.name with
  | some v => if v.truthy then v.toJSString numStr else "No response"
  | none => "No response"

/-- The section text as the specification words it: the recorded value
whenever the provider has an entry, the placeholder exactly when it has none. -/
def sectionTextAsSpecified (numStr : ℚ → String) (fields : List (String × JSVal))
    (p : Provider) : String :=
  match fields.lookup p.name with
  | some v => v.toJSString numStr
  | none => "No response"

/-- The comparison prompt with the three section texts filled in. -/
def deltaTemplate (chatgpt claude gemini : String) : String :=
  deltaHeader ++ "\n\nChatGPT: " ++ chatgpt ++ "\n\nClaude: " ++ claude
    ++ "\n\nGemini: " ++ gemini ++ "\n\n" ++ deltaFooter

/-- A response collection in which ChatGPT answered with the empty string. -/
def emptyAnswerFields : List (String × JSVal) :=
  [("chatgpt", .str ""), ("claude", .str "b"), ("gemini", .str "c")]

/-- Number formatting used in closed examples (integers only). -/
def intStr (q : ℚ) : String := toString q.num

/-! ## The window (`src/renderer.js`) -/

/-- White space and line terminators, the characters `String.prototype.trim` removes. -/
def isJSSpace (c : Char) : Bool :=
  c.toNat ∈ [0x09, 0x0A, 0x0B, 0x0C, 0x0D, 0x20, 0xA0, 0x1680, 0x2028, 0x2029, 0x202F, 0x205F,
    0x3000, 0xFEFF] || (decide (0x2000 ≤ c.toNat) && decide (c.toNat ≤ 0x200A))

/-- The method `trim` of a string. -/
def jsTrim (s : String) : String :=
  String.mk ((s.data.dropWhile isJSSpace).reverse.dropWhile isJSSpace).reverse

/-- A message appended to the panel of a provider by `addMessage`: the class
given as `type` (`user`, `assistant` or `error`) and the text shown. The
rewriting of the text into markup by `formatResponse` is not part of the
state; only its failure on a value that is not a string is. -/
structure Message where
  provider : Provider
  kind : String
  content : String

/-- What the delta panel (`delta-content`) shows. -/
inductive DeltaPanel where
  | initial
  | notice (text : String)
  | analyzing
  | analysis (text : String)
  | failure (text : String)

/-- The state of the window: the two module variables, the parts of the page
the dispatch reads and writes (the value of the prompt input, the `disabled`
property of the send button, the status dots that carry the class `loading`,
the messages of the panels, the delta panel), and the messages sent with
`ipcRenderer.invoke`, oldest first. The classes `disabled` and `active` that
`checkAPIKeys` toggles on the columns, and the delta indicator, are display
only and are left out. -/
structure Renderer where
  activeProviders : List Provider
  hasGeminiKey : JSVal
  promptValue : String
  sendDisabled : Bool
  loading : List Provider
  messages : List Message
  deltaPanel : DeltaPanel
  invoked : List IpcRequest

/-- The window before `DOMContentLoaded`: `activeProviders = new Set()`,
`hasGeminiKey = false`, an empty page. -/
def initialRenderer : Renderer :=
  { activeProviders := [], hasGeminiKey := .bool false, promptValue := "", sendDisabled := false,
    loading := [], messages := [], deltaPanel := .initial, invoked := [] }

/-- The method `add` of a `Set`, which keeps insertion order and holds no value twice. -/
def setAdd (p : Provider) (s : List Provider) : List Provider :=
  if p ∈ s then s else s ++ [p]

/-- The text `showNotification` is given when no key is found (renderer.js 39-42). -/
def noKeysNotice : String :=
  "No API keys found. Supported environment variables:\n"
    ++ "ChatGPT: OPENAI_API_KEY, CHATGPT_API_KEY, GPT_API_KEY, OPENAI_KEY\n"
    ++ "Claude: ANTHROPIC_API_KEY, CLAUDE_API_KEY, ANTHROPIC_KEY, CLAUDE_KEY\n"
    ++ "Gemini: GOOGLE_API_KEY, GEMINI_API_KEY, GOOGLE_GEMINI_KEY, GEMINI_KEY"

/-- The body of the `forEach` of `checkAPIKeys` for one provider (renderer.js 19-32). -/
def markProvider (keyData : JSVal) (provider : Provider) (st : Renderer) :
    Except JSError Renderer := do
  let hasKey ← keyData.getProp provider.name
  if hasKey.truthy then
    pure { st with activeProviders := setAdd provider st.activeProviders }
  else
    pure st

/-- Function `checkAPIKeys` (renderer.js 12-44); `ipc` is `ipcRenderer.invoke`. -/
def checkAPIKeys (ipc : IpcRequest → Except JSError JSVal) (st : Renderer) :
    Except JSError Renderer := do
  let st := { st with invoked := st.invoked ++ [IpcRequest.getApiKeys] }
  let keyData ← ipc .getApiKeys
  let gemini ← keyData.getProp "gemini"
  let st := { st with hasGeminiKey := gemini }
  let st ← markProvider keyData .chatgpt st
  let st ← markProvider keyData .claude st
  let st ← markProvider keyData .gemini st
  let st := { st with sendDisabled := decide (st.activeProviders.length = 0) }
  if st.activeProviders.length = 0 then
    pure { st with deltaPanel := .notice noKeysNotice }
  else
    pure st

/-- Function `formatResponse` (renderer.js 170-177): `text.replace` is a
method of strings only, so any other value ends in a `TypeError`. -/
def formatResponse (text : JSVal) : Except JSError String :=
  match text with
  | .str s => .ok s
  | .undefined => .error (.typeError "Cannot read properties of undefined (reading 'replace')")
  | .null => .error (.typeError "Cannot read properties of null (reading 'replace')")
  | _ => .error (.typeError "text.replace is not a function")

/-- Function `addMessage` (renderer.js 143-159). -/
def addMessage (provider : Provider) (content : JSVal) (kind : String) (st : Renderer) :
    Except JSError Renderer := do
  let shown ← formatResponse content
  pure { st with messages := st.messages ++ [{ provider := provider, kind := kind, content := shown }] }

/-- Function `setLoadingState` (renderer.js 161-168). -/
def setLoadingState (provider : Provider) (isLoading : Bool) (st : Renderer) : Renderer :=
  if isLoading then
    { st with loading := setAdd provider st.loading }
  else
    { st with loading := st.loading.filter (fun q => decide (q ≠ provider)) }

/-- Function `sendToProvider` (renderer.js 108-118), once its IPC call has settled. -/
def sendToProvider (ipc : IpcRequest → Except JSError JSVal) (provider : Provider)
    (prompt : String) : Except JSError JSVal :=
  match ipc (.sendToAi provider.name prompt) with
  | .ok response => .ok response
  | .error e =>
    .error (.error ("Failed to get response from " ++ provider.name ++ ": " ++ e.message))

/-- Where a call of `sendPrompt` stands: suspended at `Promise.allSettled`,
suspended in `analyzeDelta`, returned, or ended by an exception. -/
inductive Phase where
  | dispatching
  | deltaPending
  | done
  | raised (e : JSError)
deriving DecidableEq

/-- The local state of one call of `sendPrompt`: its `prompt`, its response
collection `responses`, the providers whose promise has not settled yet, and
its phase. -/
structure Activation where
  prompt : String
  responses : JSVal
  pending : List Provider
  phase : Phase

/-- The first `forEach` of `sendPrompt` (renderer.js 69-72). The second
component is the exception that ended the loop, if any. -/
def showPrompt (prompt : String) : List Provider → Renderer → Renderer × Option JSError
  | [], st => (st, none)
  | provider :: rest, st =>
    match addMessage provider (.str prompt) "user" st with
    | .error e => (st, some e)
    | .ok st1 => showPrompt prompt rest (setLoadingState provider true st1)

/-- Function `analyzeDelta` up to its `await` (renderer.js 120-131): the
panel shows that the analysis runs and the `'analyze-delta'` message is sent. -/
def analyzeDeltaStart (responses : JSVal) (st : Renderer) : Renderer :=
  { st with
    deltaPanel := .analyzing
    invoked := st.invoked ++ [IpcRequest.analyzeDelta responses] }

/-- Function `analyzeDelta` once its call has settled (renderer.js 132-136):
the panel shows the analysis, or the error of the call or of `formatResponse`. -/
def analyzeDeltaEnd (ipc : IpcRequest → Except JSError JSVal) (responses : JSVal)
    (st : Renderer) : Renderer :=
  match ipc (.analyzeDelta responses) with
  | .ok analysis =>
    match formatResponse analysis with
    | .ok shown => { st with deltaPanel := .analysis shown }
    | .error e =>
      { st with deltaPanel := .failure ("Failed to analyze differences: " ++ e.message) }
  | .error e =>
    { st with deltaPanel := .failure ("Failed to analyze differences: " ++ e.message) }

/-- The end of `sendPrompt` (renderer.js 100-105), entered when
`Promise.allSettled` resolves: either `analyzeDelta` is started and runs up
to its `await`, or the send button is enabled again and the call returns. -/
def finishDispatch (a : Activation) (st : Renderer) : Activation × Renderer :=
  if st.hasGeminiKey.truthy && decide (a.responses.keyCount > 1) then
    ({ a with phase := .deltaPending }, analyzeDeltaStart a.responses st)
  else
    ({ a with phase := .done }, { st with sendDisabled := false })

/-- Function `sendPrompt` from its start to its first `await` (renderer.js
59-98): `none` when the trimmed prompt is empty and the call returns at once. -/
def startPrompt (st : Renderer) : Renderer × Option Activation :=
  let prompt := jsTrim st.promptValue
  if prompt = "" then (st, none)
  else
    let st1 := { st with sendDisabled := true }
    match showPrompt prompt st1.activeProviders st1 with
    | (st2, some e) =>
      (st2, some { prompt := prompt, responses := .undefined, pending := [], phase := .raised e })
    | (st2, none) =>
      let st3 := { st2 with promptValue := "" }
      let st4 := { st3 with
        invoked := st3.invoked
          ++ st3.activeProviders.map (fun p => IpcRequest.sendToAi p.name prompt) }
      let a : Activation :=
        { prompt := prompt, responses := .obj [], pending := st4.activeProviders,
          phase := .dispatching }
      if a.pending = [] then
        let (a1, st5) := finishDispatch a st4
        (st5, some a1)
      else (st4, some a)

/-- The `.catch` callback of a provider's promise (renderer.js 89-93). -/
def onRejected (provider : Provider) (e : JSError) (st : Renderer) : Renderer :=
  match addMessage provider (.str ("Error: " ++ e.message)) "error" st with
  | .ok st1 => setLoadingState provider false st1
  | .error _ => st

/-- The callbacks of a provider's promise, run when its call settles
(renderer.js 83-93): `.then` records the response and shows it; `.catch`
shows the error of the call, or the exception of the `.then` callback. -/
def settleProvider (ipc : IpcRequest → Except JSError JSVal) (provider : Provider)
    (a : Activation) (st : Renderer) : Activation × Renderer :=
  match sendToProvider ipc provider a.prompt with
  | .ok response =>
    let a1 := { a with responses := a.responses.setProp provider.name response }
    match addMessage provider response "assistant" st with
    | .ok st1 => (a1, setLoadingState provider false st1)
    | .error e => (a1, onRejected provider e st)
  | .error e => (a, onRejected provider e st)

/-- The call of one provider settles: its callbacks run, and when it was the
last pending one `Promise.allSettled` resolves and `sendPrompt` goes on. -/
def settleCall (ipc : IpcRequest → Except JSError JSVal) (provider : Provider)
    (a : Activation) (st : Renderer) : Activation × Renderer :=
  if a.phase = .dispatching ∧ provider ∈ a.pending then
    let (a1, st1) := settleProvider ipc provider a st
    let a2 := { a1 with pending := a1.pending.erase provider }
    if a2.pending = [] then finishDispatch a2 st1 else (a2, st1)
  else (a, st)

/-- The IPC call of `analyzeDelta` settles: `analyzeDelta` ends, then
`sendPrompt` enables the send button and returns (renderer.js 105). -/
def settleDelta (ipc : IpcRequest → Except JSError JSVal) (a : Activation) (st : Renderer) :
    Activation × Renderer :=
  if a.phase = .deltaPending then
    ({ a with phase := .done },
     { analyzeDeltaEnd ipc a.responses st with sendDisabled := false })
  else (a, st)

/-- One call of `sendPrompt` run to its end, the provider calls settling in
the order `order`: the final page and the final local state of the call
(`none` when it returned at once on an empty prompt). -/
def sendPrompt (ipc : IpcRequest → Except JSError JSVal) (order : List Provider)
    (st : Renderer) : Renderer × Option Activation :=
  match startPrompt st with
  | (st1, none) => (st1, none)
  | (st1, some a) =>
    let (a2, st2) := order.foldl (fun acc p => settleCall ipc p acc.1 acc.2) (a, st1)
    let (a3, st3) := settleDelta ipc a2 st2
    (st3, some a3)

/-- The window as a transition system: the page, and every call of
`sendPrompt` made so far, in the order they were made. -/
structure Window where
  dom : Renderer
  cycles : List Activation

/-- What can happen to the window after `setupEventListeners`: the user
edits the prompt input, clicks the send button or presses a key in the
prompt input; the call of provider `p` made by the `cycle`-th call of
`sendPrompt` settles; the delta call of that call settles. -/
inductive Event where
  | input (text : String)
  | click
  | keydown (key : String) (shiftKey : Bool)
  | providerSettled (cycle : Nat) (p : Provider)
  | deltaSettled (cycle : Nat)

/-- A listener calls `sendPrompt`. -/
def launch (w : Window) : Window :=
  match startPrompt w.dom with
  | (st, none) => { w with dom := st }
  | (st, some a) => { dom := st, cycles := w.cycles ++ [a] }

/-- The step function of the window (renderer.js 46-57 for the listeners). A
disabled button receives no click. -/
def step (ipc : IpcRequest → Except JSError JSVal) (w : Window) : Event → Window
  | .input text => { w with dom := { w.dom with promptValue := text } }
  | .click => if w.dom.sendDisabled then w else launch w
  | .keydown key shiftKey => if key = "Enter" ∧ shiftKey = false then launch w else w
  | .providerSettled cycle p =>
    match w.cycles.get? cycle with
    | none => w
    | some a =>
      let (a1, st1) := settleCall ipc p a w.dom
      { dom := st1, cycles := w.cycles.set cycle a1 }
  | .deltaSettled cycle =>
    match w.cycles.get? cycle with
    | none => w
    | some a =>
      let (a1, st1) := settleDelta ipc a w.dom
      { dom := st1, cycles := w.cycles.set cycle a1 }

/-- The window after a sequence of events. -/
def run (ipc : IpcRequest → Except JSError JSVal) (w : Window) (events : List Event) : Window :=
  events.foldl (step ipc) w

/-- The `DOMContentLoaded` listener (renderer.js 7-10): the window is ready
for events once `checkAPIKeys` has returned. -/
def loadWindow (ipc : IpcRequest → Except JSError JSVal) : Except JSError Window := do
  let st ← checkAPIKeys ipc initialRenderer
  pure { dom := st, cycles := [] }

/-- Whether a call of `sendPrompt` has neither returned nor been ended by an exception. -/
def Activation.inProgress (a : Activation) : Bool :=
  decide (a.phase = .dispatching) || decide (a.phase = .deltaPending)

/-- Number of calls of `sendPrompt` in progress. -/
def Window.inProgress (w : Window) : Nat :=
  w.cycles.countP Activation.inProgress

/-! ## Vocabulary of the statements and concrete hosts -/

/-- An environment holding the first ChatGPT variable only. -/
def openaiOnlyHost : Host :=
  { env := fun name => if name = "OPENAI_API_KEY" then some "sk-test" else none
    fetch := fun _ => .networkError "fetch failed"
    numStr := intStr }

/-- A body that holds an answer at the response path of every provider. -/
def anyProviderBody : JSVal :=
  .obj [("choices", .arr [.obj [("message", .obj [("content", .str "from chatgpt")])]]),
        ("content", .arr [.obj [("text", .str "from claude")]]),
        ("candidates", .arr [.obj [("content", .obj [("parts", .arr [.obj [("text",
          .str "from gemini")]])])]])]

/-- An environment with a key for each provider, and a transport on which
the OpenAI endpoint is unreachable while every other request is answered
with status 200 and `anyProviderBody`. -/
def openaiDownHost : Host :=
  { env := fun name =>
      if name = "OPENAI_API_KEY" then some "sk-test"
      else if name = "ANTHROPIC_API_KEY" then some "ak-test"
      else if name = "GOOGLE_API_KEY" then some "gk-test"
      else none
    fetch := fun request =>
      if request.url = "https://api.openai.com/v1/chat/completions" then
        .networkError "fetch failed"
      else .response { status := 200, text := "", json := some anyProviderBody }
    numStr := intStr }

/-- The window of a host once loaded, with `text` typed into the prompt input. -/
def loadedWith (host : Host) (text : String) : Renderer :=
  match checkAPIKeys (ipcInvoke host) initialRenderer with
  | .ok st => { st with promptValue := text }
  | .error _ => initialRenderer

/-- The client of a provider, as selected by the `switch` of `'send-to-ai'`. -/
def providerClient : Provider → Host → String → JSVal → Call
  | .chatgpt => sendToChatGPT
  | .claude => sendToClaude
  | .gemini => sendToGemini

/-- One step of a response path: a field name or an element index. -/
inductive PathStep where
  | key (name : String)
  | index (i : Nat)

/-- The response paths of the specification (section 6). -/
def responsePath : Provider → List PathStep
  | .chatgpt => [.key "choices", .index 0, .key "message", .key "content"]
  | .claude => [.key "content", .index 0, .key "text"]
  | .gemini => [.key "candidates", .index 0, .key "content", .key "parts", .index 0, .key "text"]

/-- The value a JSON document holds at a path: a field name selects the field
of an object, an index the element of a list; there is no value when a step
does not apply. -/
def valueAt : JSVal → List PathStep → Option JSVal
  | v, [] => some v
  | .obj fields, .key name :: rest =>
    match fields.lookup name with
    | some w => valueAt w rest
    | none => none
  | .arr items, .index i :: rest =>
    match items.get? i with
    | some w => valueAt w rest
    | none => none
  | _, _ :: _ => none

/-- A transport that answers every request with the same response. -/
def constHost (response : Response) : Host :=
  { env := fun _ => none, fetch := fun _ => .response response, numStr := intStr }

/-- The envelope `{"choices":[{"message":{"content":"hello"}}]}`. -/
def helloBody : JSVal :=
  .obj [("choices", .arr [.obj [("message", .obj [("content", .str "hello")])]])]

/-- Whether the call of a provider ends in a value rather than an error. -/
def callSucceeded (ipc : IpcRequest → Except JSError JSVal) (prompt : String)
    (p : Provider) : Bool :=
  match ipc (.sendToAi p.name prompt) with
  | .ok _ => true
  | .error _ => false

/-- What `finishDispatch` leaves behind, as a relation between the local
state `a`, the page `st` and the result. -/
def Finished (a : Activation) (st : Renderer) (r : Activation × Renderer) : Prop :=
  r.1.prompt = a.prompt ∧ r.1.responses = a.responses
  ∧ r.2.activeProviders = st.activeProviders ∧ r.2.hasGeminiKey = st.hasGeminiKey
  ∧ r.2.promptValue = st.promptValue
  ∧ ((st.hasGeminiKey.truthy = true ∧ 1 < a.responses.keyCount
        ∧ r.1.phase = .deltaPending ∧ r.2.invoked = st.invoked ++ [.analyzeDelta a.responses])
    ∨ (¬ (st.hasGeminiKey.truthy = true ∧ 1 < a.responses.keyCount)
        ∧ r.1.phase = .done ∧ r.2.invoked = st.invoked ∧ r.2.sendDisabled = false))

/-- The fields of the response collection after the call of `p` has settled. -/
def recordOutcome (ipc : IpcRequest → Except JSError JSVal) (prompt : String) (p : Provider)
    (fs : List (String × JSVal)) : List (String × JSVal) :=
  match ipc (.sendToAi p.name prompt) with
  | .ok v => setField p.name v fs
  | .error _ => fs

/-- Whether `'get-api-keys'` reports a provider as available. -/
def hasKey (host : Host) (p : Provider) : Bool :=
  match reportedFlag host p with
  | .ok v => v.truthy
  | .error _ => false

/-- An environment with keys for ChatGPT and Gemini only, on the transport
of `openaiDownHost`: the ChatGPT call fails, the Gemini call succeeds. -/
def twoKeysOpenaiDownHost : Host :=
  { env := fun name =>
      if name = "OPENAI_API_KEY" then some "sk-test"
      else if name = "GOOGLE_API_KEY" then some "gk-test"
      else none
    fetch := openaiDownHost.fetch
    numStr := intStr }

/-- The messages the window may send, given its two module variables: a
`'send-to-ai'` message names an active provider, an `'analyze-delta'` message
needs a truthy `hasGeminiKey`. -/
def Allowed (active : List Provider) (gemini : JSVal) : IpcRequest → Prop
  | .getApiKeys => True
  | .sendToAi provider _ => ∃ p ∈ active, provider = p.name
  | .analyzeDelta _ => gemini.truthy = true

/-- The page `st'` differs from `st` by allowed messages only: the module
variables are the same and every message sent in between is allowed. -/
def Extends (st st' : Renderer) : Prop :=
  st'.activeProviders = st.activeProviders ∧ st'.hasGeminiKey = st.hasGeminiKey
  ∧ ∃ extra, st'.invoked = st.invoked ++ extra
      ∧ ∀ req ∈ extra, Allowed st.activeProviders st.hasGeminiKey req

/-- The requests that the client of provider `p` hands to `fetch` while the
main process handles a message: `'send-to-ai'` runs the client it names,
`'analyze-delta'` runs the Gemini client, `'get-api-keys'` runs none. -/
def fetchesOf (host : Host) (p : Provider) : IpcRequest → List Request
  | .getApiKeys => []
  | .sendToAi provider prompt =>
    if provider = p.name then (sendToAi host provider prompt).fetched else []
  | .analyzeDelta responses =>
    if p = .gemini then (analyzeDeltaHandler host responses).fetched else []

/-! ## Properties -/

/-- The chain `process.env.A || process.env.B || process.env.C || process.env.D`
computes the resolver of the specification on the list `[A, B, C, D]`. -/
theorem key_chain_eq (host : Host) (a b c d : String) :
    match firstNonEmpty host.env [a, b, c, d] with
    | some s =>
      s ≠ "" ∧ jsOr (jsOr (jsOr (host.getenv a) (host.getenv b)) (host.getenv c))
        (host.getenv d) = .str s
    | none =>
      (jsOr (jsOr (jsOr (host.getenv a) (host.getenv b)) (host.getenv c)) (host.getenv d)
          = .undefined
        ∨ jsOr (jsOr (jsOr (host.getenv a) (host.getenv b)) (host.getenv c)) (host.getenv d)
          = .str "")
      ∧ (jsOr (jsOr (jsOr (host.getenv a) (host.getenv b)) (host.getenv c))
          (host.getenv d)).truthy = false := by
  simp only [firstNonEmpty, Host.getenv]
  rcases host.env a with _ | sa <;> rcases host.env b with _ | sb <;>
    rcases host.env c with _ | sc <;> rcases host.env d with _ | sd <;>
    (try by_cases ha : sa = "") <;> (try by_cases hb : sb = "") <;>
    (try by_cases hc : sc = "") <;> (try by_cases hd : sd = "") <;>
    simp_all [jsOr, JSVal.truthy]

/-- C1. For every environment and provider, the credential that
`'get-api-keys'` reports is the value of the first of the provider's four
variables, in the order of the table, that holds a non-empty string, with the
availability flag `true`; when none of the four holds a non-empty string the
reported credential is absent (`undefined`, or the empty string that the
clients reject as a missing key) and the flag is `false`. -/
theorem getApiKeys_first_nonempty (host : Host) (p : Provider) :
    match firstNonEmpty host.env (lookupKeys p) with
    | some s =>
      s ≠ "" ∧ reportedKey host p = .ok (.str s) ∧ reportedFlag host p = .ok (.bool true)
    | none =>
      (reportedKey host p = .ok .undefined ∨ reportedKey host p = .ok (.str ""))
        ∧ (∀ k, reportedKey host p = .ok k → k.truthy = false)
        ∧ reportedFlag host p = .ok (.bool false) := by
  cases p
  · have h := key_chain_eq host "OPENAI_API_KEY" "CHATGPT_API_KEY" "GPT_API_KEY" "OPENAI_KEY"
    simp only [lookupKeys]
    split <;> rename_i heq <;> rw [heq] at h <;>
      simp_all [reportedKey, reportedFlag, getApiKeys, Provider.name, JSVal.getProp, List.lookup, JSVal.truthy,
        bind, Except.bind]
  · have h := key_chain_eq host "ANTHROPIC_API_KEY" "CLAUDE_API_KEY" "ANTHROPIC_KEY" "CLAUDE_KEY"
    simp only [lookupKeys]
    split <;> rename_i heq <;> rw [heq] at h <;>
      simp_all [reportedKey, reportedFlag, getApiKeys, Provider.name, JSVal.getProp, List.lookup, JSVal.truthy,
        bind, Except.bind]
  · have h := key_chain_eq host "GOOGLE_API_KEY" "GEMINI_API_KEY" "GOOGLE_GEMINI_KEY" "GEMINI_KEY"
    simp only [lookupKeys]
    split <;> rename_i heq <;> rw [heq] at h <;>
      simp_all [reportedKey, reportedFlag, getApiKeys, Provider.name, JSVal.getProp, List.lookup, JSVal.truthy,
        bind, Except.bind]

theorem valueAt_nil (v r : JSVal) (h : valueAt v [] = some r) : v = r := by
  simpa [valueAt] using h

theorem valueAt_key (v r : JSVal) (name : String) (rest : List PathStep)
    (h : valueAt v (.key name :: rest) = some r) :
    ∃ w, v.getProp name = .ok w ∧ valueAt w rest = some r ∧ v.truthy = true := by
  cases v
  case obj fields =>
    simp only [valueAt] at h
    cases hl : fields.lookup name with
    | none => rw [hl] at h; simp at h
    | some w =>
      rw [hl] at h
      exact ⟨w, by simp [JSVal.getProp, hl], h, by simp [JSVal.truthy]⟩
  all_goals simp [valueAt] at h

theorem valueAt_index (v r : JSVal) (i : Nat) (rest : List PathStep)
    (h : valueAt v (.index i :: rest) = some r) :
    ∃ w, v.getIndex i = .ok w ∧ valueAt w rest = some r ∧ v.truthy = true := by
  cases v
  case arr items =>
    simp only [valueAt] at h
    cases hl : items.get? i with
    | none => rw [hl] at h; simp at h
    | some w =>
      rw [hl] at h
      have hw : items[i]? = some w := by simpa using hl
      exact ⟨w, by simp [JSVal.getIndex, List.getD, hw], h, by simp [JSVal.truthy]⟩
  all_goals simp [valueAt] at h

/-- C6. For every provider, non-empty credential, prompt and text `t`: when
the transport answers the client's request with a 2xx response whose JSON body
holds the string `t` at the provider's response path, the client returns
exactly `t`. -/
theorem client_returns_path_text (host : Host) (p : Provider) (key prompt t : String)
    (response : Response) (data : JSVal)
    (hkey : key ≠ "")
    (hfetch : ∀ request ∈ (providerClient p host prompt (.str key)).fetched,
      host.fetch request = .response response)
    (hstatus : 200 ≤ response.status ∧ response.status ≤ 299)
    (hjson : response.json = some data)
    (hpath : valueAt data (responsePath p) = some (.str t)) :
    (providerClient p host prompt (.str key)).result = .ok (.str t) := by
  have hok : response.ok = true := by simp [Response.ok, hstatus.1, hstatus.2]
  have hk : (JSVal.str key).truthy = true := by simp [JSVal.truthy, hkey]
  cases p
  · simp only [responsePath] at hpath
    obtain ⟨a, ha, hpath, -⟩ := valueAt_key _ _ _ _ hpath
    obtain ⟨b, hb, hpath, -⟩ := valueAt_index _ _ _ _ hpath
    obtain ⟨c, hc, hpath, -⟩ := valueAt_key _ _ _ _ hpath
    obtain ⟨d, hd, hpath, -⟩ := valueAt_key _ _ _ _ hpath
    have hd' := valueAt_nil _ _ hpath
    subst hd'
    simp only [providerClient, sendToChatGPT, hk, Bool.not_true, Bool.false_eq_true,
      ↓reduceIte, List.mem_singleton, forall_eq] at hfetch ⊢
    simp [hfetch, hok, hjson, ha, hb, hc, hd, bind, Except.bind]
  · simp only [responsePath] at hpath
    obtain ⟨a, ha, hpath, -⟩ := valueAt_key _ _ _ _ hpath
    obtain ⟨b, hb, hpath, -⟩ := valueAt_index _ _ _ _ hpath
    obtain ⟨c, hc, hpath, -⟩ := valueAt_key _ _ _ _ hpath
    have hc' := valueAt_nil _ _ hpath
    subst hc'
    simp only [providerClient, sendToClaude, hk, Bool.not_true, Bool.false_eq_true,
      ↓reduceIte, List.mem_singleton, forall_eq] at hfetch ⊢
    simp [hfetch, hok, hjson, ha, hb, hc, bind, Except.bind]
  · simp only [responsePath] at hpath
    obtain ⟨a, ha, hpath, -⟩ := valueAt_key _ _ _ _ hpath
    obtain ⟨b, hb, hpath, hat⟩ := valueAt_index _ _ _ _ hpath
    obtain ⟨c, hc, hpath, hbt⟩ := valueAt_key _ _ _ _ hpath
    obtain ⟨d, hd, hpath, -⟩ := valueAt_key _ _ _ _ hpath
    obtain ⟨e, he, hpath, -⟩ := valueAt_index _ _ _ _ hpath
    obtain ⟨f, hf, hpath, -⟩ := valueAt_key _ _ _ _ hpath
    have hf' := valueAt_nil _ _ hpath
    subst hf'
    simp only [providerClient, sendToGemini, hk, Bool.not_true, Bool.false_eq_true,
      ↓reduceIte, List.mem_singleton, forall_eq] at hfetch ⊢
    simp [hfetch, hok, hjson, ha, hb, hc, hd, he, hf, hat, hbt, bind, Except.bind]

/-- Witness of C6: the stub `choices[0].message.content = "hello"` yields `"hello"`. -/
theorem client_returns_path_text_witness :
    (providerClient .chatgpt (constHost ⟨200, "", some helloBody⟩) "hi" (.str "k")).result
      = .ok (.str "hello") :=
  client_returns_path_text (constHost ⟨200, "", some helloBody⟩) .chatgpt "k" "hi" "hello"
    ⟨200, "", some helloBody⟩ helloBody (by decide) (fun _ _ => rfl)
    ⟨by decide, by decide⟩ rfl rfl

/-- The Gemini client guards the first two steps of its path: a missing or
empty candidate list is answered with its dedicated error. -/
theorem sendToGemini_guards_candidates :
    (sendToGemini (constHost ⟨200, "", some (.obj [("candidates", .arr [])])⟩) "hi"
        (.str "k")).result = .error (.error "Invalid response from Gemini API")
    ∧ (sendToGemini (constHost ⟨200, "", some (.obj [])⟩) "hi" (.str "k")).result
        = .error (.error "Invalid response from Gemini API") := by
  constructor <;> rfl

/-- C7. The clients at 2xx bodies that lack a part of the response path: an
empty `choices` list, an empty `content` list and a candidate without
`content` end in the runtime's `TypeError` of a property read on `undefined`,
and a `message` without `content` is returned as `undefined` with no error at
all; none ends in a dedicated malformed-response error. -/
theorem malformed_body_faults :
    (sendToChatGPT (constHost ⟨200, "", some (.obj [("choices", .arr [])])⟩) "hi"
        (.str "k")).result
      = .error (.typeError "Cannot read properties of undefined (reading 'message')")
    ∧ (sendToClaude (constHost ⟨200, "", some (.obj [("content", .arr [])])⟩) "hi"
        (.str "k")).result
      = .error (.typeError "Cannot read properties of undefined (reading 'text')")
    ∧ (sendToGemini (constHost ⟨200, "", some (.obj [("candidates", .arr [.obj []])])⟩) "hi"
        (.str "k")).result
      = .error (.typeError "Cannot read properties of undefined (reading 'parts')")
    ∧ (sendToChatGPT (constHost ⟨200, "", some (.obj [("choices", .arr [.obj [("message",
        .obj [])]])])⟩) "hi" (.str "k")).result = .ok .undefined := by
  refine ⟨?_, ?_, ?_, ?_⟩ <;> rfl

theorem deltaPrompt_obj (numStr : ℚ → String) (fields : List (String × JSVal)) :
    deltaPrompt numStr (.obj fields)
      = .ok (deltaTemplate (sectionText numStr fields .chatgpt)
          (sectionText numStr fields .claude) (sectionText numStr fields .gemini)) := by
  have h : ∀ name : String,
      (jsOr ((fields.lookup name).getD .undefined) (.str "No response")).toJSString numStr
        = (match fields.lookup name with
          | some v => if v.truthy then v.toJSString numStr else "No response"
          | none => "No response") := by
    intro name
    cases fields.lookup name with
    | none => simp [jsOr, JSVal.truthy, JSVal.toJSString]
    | some v =>
      by_cases hv : v.truthy = true <;> simp [jsOr, hv, JSVal.toJSString]
  simp only [deltaPrompt, JSVal.getProp, bind, Except.bind, pure, Except.pure, h, deltaTemplate,
    sectionText, Provider.name]

/-- C8 fails as stated: with an entry whose text is the empty string, the
prompt built by `'analyze-delta'` is not the one with that text in the
provider's section; the section reads `No response`. -/
theorem deltaPrompt_empty_entry_counterexample :
    deltaPrompt intStr (.obj emptyAnswerFields)
      ≠ .ok (deltaTemplate (sectionTextAsSpecified intStr emptyAnswerFields .chatgpt)
          (sectionTextAsSpecified intStr emptyAnswerFields .claude)
          (sectionTextAsSpecified intStr emptyAnswerFields .gemini)) := by
  have e1 : sectionText intStr emptyAnswerFields .chatgpt = "No response" := rfl
  have e2 : sectionTextAsSpecified intStr emptyAnswerFields .chatgpt = "" := rfl
  rw [deltaPrompt_obj, e1, e2]
  intro h
  have h2 := congrArg String.data (Except.ok.inj h)
  simp [deltaTemplate, String.data_append] at h2

/-- C8, amended. For every response collection the prompt built by
`'analyze-delta'` is the header, then the sections `ChatGPT: t`, `Claude: t`,
`Gemini: t` in this order, then the footer, where for each provider `t` is the
recorded text verbatim when the provider has an entry holding a non-empty
string, and the literal `No response` when the provider has no entry or its
recorded text is the empty string. -/
theorem deltaPrompt_sections (numStr : ℚ → String) (fields : List (String × JSVal)) :
    deltaPrompt numStr (.obj fields)
      = .ok (deltaHeader ++ "\n\nChatGPT: " ++ sectionText numStr fields .chatgpt
          ++ "\n\nClaude: " ++ sectionText numStr fields .claude
          ++ "\n\nGemini: " ++ sectionText numStr fields .gemini ++ "\n\n" ++ deltaFooter)
    ∧ ∀ p : Provider,
      (∀ t : String, t ≠ "" → fields.lookup p.name = some (.str t)
          → sectionText numStr fields p = t)
      ∧ (fields.lookup p.name = some (.str "") → sectionText numStr fields p = "No response")
      ∧ (fields.lookup p.name = none → sectionText numStr fields p = "No response") := by
  refine ⟨by rw [deltaPrompt_obj]; rfl, fun p => ⟨?_, ?_, ?_⟩⟩
  · intro t ht hl
    simp [sectionText, hl, JSVal.truthy, ht, JSVal.toJSString]
  · intro hl
    simp [sectionText, hl, JSVal.truthy]
  · intro hl
    simp [sectionText, hl]

theorem getProp_error_kind (v : JSVal) (name : String) (e : JSError)
    (h : v.getProp name = .error e) : ∃ m, e = .typeError m := by
  cases v <;> simp [JSVal.getProp] at h <;> exact ⟨_, h.symm⟩

theorem getIndex_error_kind (v : JSVal) (i : Nat) (e : JSError)
    (h : v.getIndex i = .error e) : ∃ m, e = .typeError m := by
  cases v <;> simp [JSVal.getIndex] at h
  case undefined => exact ⟨_, h.symm⟩
  case null => exact ⟨_, h.symm⟩
  case str s => split at h <;> simp at h

theorem openai_error_ne (a b : String) :
    "OpenAI API error: " ++ a ++ " - " ++ b ≠ "OpenAI API key not found" := by
  intro h
  have h2 := congrArg (fun s => s.data.take 12) h
  simp [String.data_append] at h2

theorem anthropic_error_ne (a b : String) :
    "Anthropic API error: " ++ a ++ " - " ++ b ≠ "Anthropic API key not found" := by
  intro h
  have h2 := congrArg (fun s => s.data.take 15) h
  simp [String.data_append] at h2

theorem google_error_ne (a b : String) :
    "Google API error: " ++ a ++ " - " ++ b ≠ "Google API key not found" := by
  intro h
  have h2 := congrArg (fun s => s.data.take 12) h
  simp [String.data_append] at h2

/-- A client never passes its key check with a falsy key, and with a truthy
key it hands exactly one request to `fetch` and does not end in the
missing-key error. -/
theorem client_key_check (host : Host) (p : Provider) (prompt : String) (key : JSVal) :
    ((providerClient p host prompt key).result = .error (.error (missingKeyMessage p))
      ↔ key.truthy = false)
    ∧ ((providerClient p host prompt key).fetched = [] ↔ key.truthy = false) := by
  by_cases hk : key.truthy = true
  · cases p
    · simp only [providerClient, sendToChatGPT, hk, Bool.not_true, Bool.false_eq_true,
        ↓reduceIte, missingKeyMessage]
      refine ⟨⟨fun h => ?_, fun h => by simp at h⟩, by simp⟩
      exfalso
      revert h
      cases host.fetch _ with
      | networkError m => simp
      | response r =>
        by_cases hok : r.ok = true
        · simp only [hok, Bool.not_true, Bool.false_eq_true, ↓reduceIte]
          cases r.json with
          | none => simp
          | some data =>
            simp only [bind, Except.bind]
            intro h
            repeat (split at h; · rename_i e he; first
              | (obtain ⟨m, rfl⟩ := getProp_error_kind _ _ _ he; simp at h)
              | (obtain ⟨m, rfl⟩ := getIndex_error_kind _ _ _ he; simp at h))
            obtain ⟨m, hm⟩ := getProp_error_kind _ _ _ h
            simp at hm
        · simp [hok, openai_error_ne]
    · simp only [providerClient, sendToClaude, hk, Bool.not_true, Bool.false_eq_true,
        ↓reduceIte, missingKeyMessage]
      refine ⟨⟨fun h => ?_, fun h => by simp at h⟩, by simp⟩
      exfalso
      revert h
      cases host.fetch _ with
      | networkError m => simp
      | response r =>
        by_cases hok : r.ok = true
        · simp only [hok, Bool.not_true, Bool.false_eq_true, ↓reduceIte]
          cases r.json with
          | none => simp
          | some data =>
            simp only [bind, Except.bind]
            intro h
            repeat (split at h; · rename_i e he; first
              | (obtain ⟨m, rfl⟩ := getProp_error_kind _ _ _ he; simp at h)
              | (obtain ⟨m, rfl⟩ := getIndex_error_kind _ _ _ he; simp at h))
            obtain ⟨m, hm⟩ := getProp_error_kind _ _ _ h
            simp at hm
        · simp [hok, anthropic_error_ne]
    · simp only [providerClient, sendToGemini, hk, Bool.not_true, Bool.false_eq_true,
        ↓reduceIte, missingKeyMessage]
      refine ⟨⟨fun h => ?_, fun h => by simp at h⟩, by simp⟩
      exfalso
      revert h
      cases host.fetch _ with
      | networkError m => simp
      | response r =>
        by_cases hok : r.ok = true
        · simp only [hok, Bool.not_true, Bool.false_eq_true, ↓reduceIte]
          cases r.json with
          | none => simp
          | some data =>
            simp only [bind, Except.bind]
            intro h
            split at h
            · rename_i e he
              obtain ⟨m, rfl⟩ := getProp_error_kind _ _ _ he
              simp at h
            split at h
            · simp at h
            split at h
            · rename_i e he
              obtain ⟨m, rfl⟩ := getIndex_error_kind _ _ _ he
              simp at h
            split at h
            · simp at h
            repeat (split at h; · rename_i e he; first
              | (obtain ⟨m, rfl⟩ := getProp_error_kind _ _ _ he; simp at h)
              | (obtain ⟨m, rfl⟩ := getIndex_error_kind _ _ _ he; simp at h))
            obtain ⟨m, hm⟩ := getProp_error_kind _ _ _ h
            simp at hm
        · simp [hok, google_error_ne]
  · have hk' : key.truthy = false := by simpa using hk
    cases p <;>
      simp [providerClient, sendToChatGPT, sendToClaude, sendToGemini, hk', missingKeyMessage]

/-- C10. For every environment and provider the three handlers resolve the
credential alike: `'send-to-ai'` runs the provider's client with the very key
that `'get-api-keys'` reports, the reported flag is the truthiness of that
key, the call ends in the client's missing-key error exactly when the flag is
`false`, and `'analyze-delta'` runs the Gemini client with the Gemini key that
`'get-api-keys'` reports. -/
theorem handlers_resolve_alike (host : Host) (p : Provider) (prompt : String)
    (responses : JSVal) :
    ∃ key geminiKey,
      reportedKey host p = .ok key
      ∧ reportedFlag host p = .ok (.bool key.truthy)
      ∧ sendToAi host p.name prompt = providerClient p host prompt key
      ∧ ((sendToAi host p.name prompt).result = .error (.error (missingKeyMessage p))
          ↔ reportedFlag host p = .ok (.bool false))
      ∧ ((sendToAi host p.name prompt).fetched = []
          ↔ reportedFlag host p = .ok (.bool false))
      ∧ reportedKey host .gemini = .ok geminiKey
      ∧ analyzeDeltaHandler host responses
          = (match deltaPrompt host.numStr responses with
            | .ok text => sendToGemini host text geminiKey
            | .error e => { fetched := [], result := .error e }) := by
  have hsend : ∃ key, reportedKey host p = .ok key
      ∧ reportedFlag host p = .ok (.bool key.truthy)
      ∧ sendToAi host p.name prompt = providerClient p host prompt key := by
    cases p <;> exact ⟨_, rfl, rfl, rfl⟩
  obtain ⟨key, h1, h2, h3⟩ := hsend
  have hc := client_key_check host p prompt key
  refine ⟨key, jsOr (jsOr (jsOr (host.getenv "GOOGLE_API_KEY") (host.getenv "GEMINI_API_KEY"))
    (host.getenv "GOOGLE_GEMINI_KEY")) (host.getenv "GEMINI_KEY"), h1, h2, h3, ?_, ?_, ?_, ?_⟩
  · rw [h3, h2, hc.1]
    simp
  · rw [h3, h2, hc.2]
    simp
  · rfl
  · simp only [analyzeDeltaHandler]
    cases deltaPrompt host.numStr responses <;> rfl

theorem name_injective (p q : Provider) (h : p.name = q.name) : p = q := by
  cases p <;> cases q <;> first | rfl | (exact absurd h (by decide))

theorem lookup_setField_self (name : String) (value : JSVal) (fields : List (String × JSVal)) :
    (setField name value fields).lookup name = some value := by
  induction fields with
  | nil => simp [setField, List.lookup]
  | cons kv rest ih =>
    obtain ⟨k, v⟩ := kv
    by_cases hk : k = name
    · subst hk
      simp [setField, List.lookup]
    · have hb : (name == k) = false := by simpa using fun h => hk h.symm
      simp [setField, hk, List.lookup, hb, ih]

theorem lookup_setField_ne (name other : String) (value : JSVal)
    (fields : List (String × JSVal)) (h : other ≠ name) :
    (setField name value fields).lookup other = fields.lookup other := by
  induction fields with
  | nil =>
    have hb : (other == name) = false := by simpa using h
    simp [setField, List.lookup, hb]
  | cons kv rest ih =>
    obtain ⟨k, v⟩ := kv
    by_cases hk : k = name
    · subst hk
      have hb : (other == k) = false := by simpa using h
      simp [setField, List.lookup, hb]
    · by_cases ho : other = k
      · subst ho
        simp [setField, hk, List.lookup]
      · have hb : (other == k) = false := by simpa using ho
        simp [setField, hk, List.lookup, hb, ih]

theorem length_setField_new (name : String) (value : JSVal) (fields : List (String × JSVal))
    (h : fields.lookup name = none) : (setField name value fields).length = fields.length + 1 := by
  induction fields with
  | nil => simp [setField]
  | cons kv rest ih =>
    obtain ⟨k, v⟩ := kv
    by_cases hk : k = name
    · subst hk
      simp [List.lookup] at h
    · have hb : (name == k) = false := by simpa using fun h => hk h.symm
      simp only [List.lookup, hb] at h
      simp [setField, hk, ih h]

theorem formatResponse_str (s : String) : formatResponse (.str s) = .ok s := rfl

theorem setLoadingState_frame (p : Provider) (b : Bool) (st : Renderer) :
    (setLoadingState p b st).activeProviders = st.activeProviders
    ∧ (setLoadingState p b st).hasGeminiKey = st.hasGeminiKey
    ∧ (setLoadingState p b st).invoked = st.invoked
    ∧ (setLoadingState p b st).sendDisabled = st.sendDisabled
    ∧ (setLoadingState p b st).promptValue = st.promptValue := by
  cases b <;> simp [setLoadingState]

theorem addMessage_frame (p : Provider) (content : JSVal) (kind : String) (st st1 : Renderer)
    (h : addMessage p content kind st = .ok st1) :
    st1.activeProviders = st.activeProviders ∧ st1.hasGeminiKey = st.hasGeminiKey
    ∧ st1.invoked = st.invoked ∧ st1.sendDisabled = st.sendDisabled
    ∧ st1.promptValue = st.promptValue := by
  simp only [addMessage, bind, Except.bind] at h
  split at h
  · simp at h
  · simp only [pure, Except.pure, Except.ok.injEq] at h
    subst h
    simp

theorem onRejected_frame (p : Provider) (e : JSError) (st : Renderer) :
    (onRejected p e st).activeProviders = st.activeProviders
    ∧ (onRejected p e st).hasGeminiKey = st.hasGeminiKey
    ∧ (onRejected p e st).invoked = st.invoked
    ∧ (onRejected p e st).sendDisabled = st.sendDisabled
    ∧ (onRejected p e st).promptValue = st.promptValue := by
  simp only [onRejected]
  split
  · rename_i st1 h
    have h1 := addMessage_frame _ _ _ _ _ h
    have h2 := setLoadingState_frame p false st1
    simp [h1, h2]
  · simp

theorem showPrompt_frame (prompt : String) (ps : List Provider) :
    ∀ st : Renderer, (showPrompt prompt ps st).2 = none
      ∧ (showPrompt prompt ps st).1.activeProviders = st.activeProviders
      ∧ (showPrompt prompt ps st).1.hasGeminiKey = st.hasGeminiKey
      ∧ (showPrompt prompt ps st).1.invoked = st.invoked
      ∧ (showPrompt prompt ps st).1.sendDisabled = st.sendDisabled
      ∧ (showPrompt prompt ps st).1.promptValue = st.promptValue := by
  induction ps with
  | nil => intro st; simp [showPrompt]
  | cons p rest ih =>
    intro st
    simp only [showPrompt, addMessage, formatResponse_str, bind, Except.bind, pure, Except.pure]
    have h := ih (setLoadingState p true
      { st with messages := st.messages ++ [{ provider := p, kind := "user", content := prompt }] })
    have h2 := setLoadingState_frame p true
      { st with messages := st.messages ++ [{ provider := p, kind := "user", content := prompt }] }
    simp only [h, h2, and_self]

theorem settleProvider_local (ipc : IpcRequest → Except JSError JSVal) (p : Provider)
    (a : Activation) (st : Renderer) :
    (settleProvider ipc p a st).1.prompt = a.prompt
    ∧ (settleProvider ipc p a st).1.pending = a.pending
    ∧ (settleProvider ipc p a st).1.phase = a.phase
    ∧ (settleProvider ipc p a st).1.responses
        = (match ipc (.sendToAi p.name a.prompt) with
          | .ok v => a.responses.setProp p.name v
          | .error _ => a.responses) := by
  simp only [settleProvider, sendToProvider]
  cases ipc (.sendToAi p.name a.prompt) with
  | error e => simp
  | ok v =>
    simp only
    cases addMessage p v "assistant" st <;> simp

theorem settleProvider_frame (ipc : IpcRequest → Except JSError JSVal) (p : Provider)
    (a : Activation) (st : Renderer) :
    (settleProvider ipc p a st).2.activeProviders = st.activeProviders
    ∧ (settleProvider ipc p a st).2.hasGeminiKey = st.hasGeminiKey
    ∧ (settleProvider ipc p a st).2.invoked = st.invoked
    ∧ (settleProvider ipc p a st).2.sendDisabled = st.sendDisabled
    ∧ (settleProvider ipc p a st).2.promptValue = st.promptValue := by
  simp only [settleProvider]
  cases sendToProvider ipc p a.prompt with
  | error e => exact onRejected_frame p _ st
  | ok v =>
    simp only
    cases h : addMessage p v "assistant" st with
    | error e => exact onRejected_frame p _ st
    | ok st1 =>
      have h1 := addMessage_frame _ _ _ _ _ h
      have h2 := setLoadingState_frame p false st1
      simp [h1, h2]

theorem settleCall_idle (ipc : IpcRequest → Except JSError JSVal) (p : Provider)
    (a : Activation) (st : Renderer) (h : a.phase ≠ .dispatching) :
    settleCall ipc p a st = (a, st) := by
  simp [settleCall, h]

theorem foldl_settleCall_idle (ipc : IpcRequest → Except JSError JSVal) (order : List Provider)
    (a : Activation) (st : Renderer) (h : a.phase ≠ .dispatching) :
    order.foldl (fun acc p => settleCall ipc p acc.1 acc.2) (a, st) = (a, st) := by
  induction order with
  | nil => rfl
  | cons p rest ih => simp only [List.foldl, settleCall_idle ipc p a st h, ih]

theorem settleCall_absent (ipc : IpcRequest → Except JSError JSVal) (p : Provider)
    (a : Activation) (st : Renderer) (h : p ∉ a.pending) :
    settleCall ipc p a st = (a, st) := by
  simp [settleCall, h]

theorem finishDispatch_finished (a : Activation) (st : Renderer) :
    Finished a st (finishDispatch a st) := by
  unfold Finished finishDispatch
  by_cases h : st.hasGeminiKey.truthy = true ∧ 1 < a.responses.keyCount
  · simp [h.1, h.2, analyzeDeltaStart]
  · have h' : ¬ ((st.hasGeminiKey.truthy && decide (a.responses.keyCount > 1)) = true) := by
      simpa using h
    rw [if_neg h']
    simp only [true_and, and_self, and_true]
    right
    simpa using h

theorem recordOutcome_spec (ipc : IpcRequest → Except JSError JSVal) (prompt : String)
    (p : Provider) (fs : List (String × JSVal)) (hfresh : fs.lookup p.name = none) :
    (recordOutcome ipc prompt p fs).lookup p.name = (ipc (.sendToAi p.name prompt)).toOption
    ∧ (∀ n, p.name ≠ n → (recordOutcome ipc prompt p fs).lookup n = fs.lookup n)
    ∧ (recordOutcome ipc prompt p fs).length
        = fs.length + (if callSucceeded ipc prompt p = true then 1 else 0) := by
  unfold recordOutcome callSucceeded
  cases ipc (.sendToAi p.name prompt) with
  | error e => simp [Except.toOption, hfresh]
  | ok v =>
    refine ⟨by simp [Except.toOption, lookup_setField_self], ?_, ?_⟩
    · intro n hn
      exact lookup_setField_ne _ _ _ _ (fun h => hn h.symm)
    · simp [length_setField_new _ _ _ hfresh]

theorem settleProvider_responses (ipc : IpcRequest → Except JSError JSVal) (p : Provider)
    (a : Activation) (st : Renderer) (fs : List (String × JSVal)) (h : a.responses = .obj fs) :
    (settleProvider ipc p a st).1.responses = .obj (recordOutcome ipc a.prompt p fs) := by
  rw [(settleProvider_local ipc p a st).2.2.2, h]
  unfold recordOutcome
  cases ipc (.sendToAi p.name a.prompt) <;> simp [JSVal.setProp]

theorem countP_of_mem (f : Provider → Bool) (p : Provider) (l : List Provider) (h : p ∈ l) :
    l.countP f = (if f p = true then 1 else 0) + (l.erase p).countP f := by
  rw [(List.perm_cons_erase h).countP_eq, List.countP_cons]
  omega

theorem finishDispatch_phase (a : Activation) (st : Renderer) :
    (finishDispatch a st).1.phase ≠ .dispatching := by
  unfold finishDispatch
  split <;> simp

/-- The response collection when the last pending call has settled: the
run of the settlements ends in `finishDispatch`, entered with a collection
that holds, for each provider that was pending, the value of its call when
the call succeeded and nothing when it failed. -/
theorem foldl_settleCall_all (ipc : IpcRequest → Except JSError JSVal) (order : List Provider) :
    ∀ (a : Activation) (st : Renderer) (fs : List (String × JSVal)),
      a.phase = .dispatching → a.responses = .obj fs → a.pending ≠ [] → a.pending.Nodup →
      (∀ p ∈ a.pending, p ∈ order) → (∀ p ∈ a.pending, fs.lookup p.name = none) →
      ∃ fs' a' st',
        order.foldl (fun acc p => settleCall ipc p acc.1 acc.2) (a, st) = finishDispatch a' st'
        ∧ a'.responses = .obj fs' ∧ a'.prompt = a.prompt
        ∧ st'.activeProviders = st.activeProviders ∧ st'.hasGeminiKey = st.hasGeminiKey
        ∧ st'.invoked = st.invoked ∧ st'.promptValue = st.promptValue
        ∧ (∀ p ∈ a.pending, fs'.lookup p.name = (ipc (.sendToAi p.name a.prompt)).toOption)
        ∧ (∀ n, (∀ p ∈ a.pending, p.name ≠ n) → fs'.lookup n = fs.lookup n)
        ∧ fs'.length = fs.length + a.pending.countP (callSucceeded ipc a.prompt) := by
  induction order with
  | nil =>
    intro a st fs _ _ hne _ hcover _
    cases hp : a.pending with
    | nil => exact absurd hp hne
    | cons q rest =>
      have := hcover q (by simp [hp])
      simp at this
  | cons p rest ih =>
    intro a st fs hphase hresp hne hnodup hcover hfresh
    by_cases hmem : p ∈ a.pending
    · have hl := settleProvider_local ipc p a st
      have hf := settleProvider_frame ipc p a st
      have hr := settleProvider_responses ipc p a st fs hresp
      have hrec := recordOutcome_spec ipc a.prompt p fs (hfresh p hmem)
      have hcount := countP_of_mem (callSucceeded ipc a.prompt) p a.pending hmem
      have hstep : settleCall ipc p a st
          = (if a.pending.erase p = [] then
              finishDispatch { (settleProvider ipc p a st).1 with pending := a.pending.erase p }
                (settleProvider ipc p a st).2
            else ({ (settleProvider ipc p a st).1 with pending := a.pending.erase p },
              (settleProvider ipc p a st).2)) := by
        simp only [settleCall, hphase, hmem, and_self, ↓reduceIte, hl.2.1]
      simp only [List.foldl, hstep]
      by_cases hlast : a.pending.erase p = []
      · simp only [hlast, ↓reduceIte]
        rw [foldl_settleCall_idle _ _ _ _ (finishDispatch_phase _ _)]
        refine ⟨recordOutcome ipc a.prompt p fs, _, _, rfl, hr, hl.1, hf.1, hf.2.1, hf.2.2.1,
          hf.2.2.2.2, ?_, ?_, ?_⟩
        · intro q hq
          have hqp : q = p := by
            by_contra hne
            have := (List.mem_erase_of_ne hne).mpr hq
            simp [hlast] at this
          subst hqp
          exact hrec.1
        · intro n hn
          exact hrec.2.1 n (hn p hmem)
        · rw [hrec.2.2, hcount, hlast]
          simp
      · simp only [hlast, ↓reduceIte]
        have hnodup' : (a.pending.erase p).Nodup := hnodup.erase p
        have hcover' : ∀ q ∈ a.pending.erase p, q ∈ rest := by
          intro q hq
          have hq' := (hnodup.mem_erase_iff).mp hq
          rcases List.mem_cons.mp (hcover q hq'.2) with h | h
          · exact absurd h hq'.1
          · exact h
        have hfresh' : ∀ q ∈ a.pending.erase p,
            (recordOutcome ipc a.prompt p fs).lookup q.name = none := by
          intro q hq
          have hq' := (hnodup.mem_erase_iff).mp hq
          rw [hrec.2.1 q.name (fun h => hq'.1 (name_injective _ _ h.symm))]
          exact hfresh q hq'.2
        obtain ⟨fs', a', st', h1, h2, h3, h4, h5, h6, h7, h8, h9, h10⟩ :=
          ih { (settleProvider ipc p a st).1 with pending := a.pending.erase p }
            (settleProvider ipc p a st).2 (recordOutcome ipc a.prompt p fs)
            (hl.2.2.1.trans hphase) hr hlast hnodup' hcover' hfresh'
        refine ⟨fs', a', st', h1, h2, h3.trans hl.1, h4.trans hf.1, h5.trans hf.2.1,
          h6.trans hf.2.2.1, h7.trans hf.2.2.2.2, ?_, ?_, ?_⟩
        · intro q hq
          by_cases hqp : q = p
          · subst hqp
            have hun := h9 q.name (fun r hr' hname =>
              ((hnodup.mem_erase_iff).mp hr').1 (name_injective _ _ hname))
            rw [hun]
            exact hrec.1
          · have := h8 q ((hnodup.mem_erase_iff).mpr ⟨hqp, hq⟩)
            simpa [hl.1] using this
        · intro n hn
          rw [h9 n (fun r hr' => hn r ((hnodup.mem_erase_iff).mp hr').2)]
          exact hrec.2.1 n (hn p hmem)
        · rw [h10, hrec.2.2, hcount]
          simp only [hl.1]
          omega
    · simp only [List.foldl, settleCall_absent ipc p a st hmem]
      refine ih a st fs hphase hresp hne hnodup ?_ hfresh
      intro q hq
      have := hcover q hq
      rcases List.mem_cons.mp this with h | h
      · subst h; exact absurd hq hmem
      · exact h

theorem analyzeDeltaEnd_frame (ipc : IpcRequest → Except JSError JSVal) (responses : JSVal)
    (st : Renderer) :
    (analyzeDeltaEnd ipc responses st).activeProviders = st.activeProviders
    ∧ (analyzeDeltaEnd ipc responses st).hasGeminiKey = st.hasGeminiKey
    ∧ (analyzeDeltaEnd ipc responses st).invoked = st.invoked := by
  unfold analyzeDeltaEnd
  split
  · split <;> simp
  · simp

theorem settleDelta_finishDispatch (ipc : IpcRequest → Except JSError JSVal) (a : Activation)
    (st : Renderer) :
    (settleDelta ipc (finishDispatch a st).1 (finishDispatch a st).2).1.phase = .done
    ∧ (settleDelta ipc (finishDispatch a st).1 (finishDispatch a st).2).1.responses = a.responses
    ∧ (settleDelta ipc (finishDispatch a st).1 (finishDispatch a st).2).1.prompt = a.prompt
    ∧ (settleDelta ipc (finishDispatch a st).1 (finishDispatch a st).2).2.invoked
        = st.invoked ++ (if st.hasGeminiKey.truthy = true ∧ 1 < a.responses.keyCount
            then [IpcRequest.analyzeDelta a.responses] else [])
    ∧ (settleDelta ipc (finishDispatch a st).1 (finishDispatch a st).2).2.sendDisabled = false
    ∧ (settleDelta ipc (finishDispatch a st).1 (finishDispatch a st).2).2.activeProviders
        = st.activeProviders
    ∧ (settleDelta ipc (finishDispatch a st).1 (finishDispatch a st).2).2.hasGeminiKey
        = st.hasGeminiKey := by
  by_cases h : st.hasGeminiKey.truthy = true ∧ 1 < a.responses.keyCount
  · have hc : (st.hasGeminiKey.truthy && decide (a.responses.keyCount > 1)) = true := by
      simpa using h
    have hf := analyzeDeltaEnd_frame ipc a.responses (analyzeDeltaStart a.responses st)
    simp [finishDispatch, settleDelta, hc, h, hf]
    simp [analyzeDeltaStart]
  · have hc : ¬ ((st.hasGeminiKey.truthy && decide (a.responses.keyCount > 1)) = true) := by
      simpa using h
    simp only [finishDispatch, if_neg hc, settleDelta, if_neg h]
    simp

theorem startPrompt_nonempty (st : Renderer) (h : jsTrim st.promptValue ≠ "") :
    ∃ st1 : Renderer,
      st1.activeProviders = st.activeProviders ∧ st1.hasGeminiKey = st.hasGeminiKey
      ∧ st1.invoked = st.invoked
          ++ st.activeProviders.map (fun p => IpcRequest.sendToAi p.name (jsTrim st.promptValue))
      ∧ startPrompt st
        = (if st.activeProviders = [] then
            ((finishDispatch ⟨jsTrim st.promptValue, .obj [], st.activeProviders, .dispatching⟩
                st1).2,
              some (finishDispatch ⟨jsTrim st.promptValue, .obj [], st.activeProviders,
                .dispatching⟩ st1).1)
          else (st1, some ⟨jsTrim st.promptValue, .obj [], st.activeProviders,
            .dispatching⟩)) := by
  have hs := showPrompt_frame (jsTrim st.promptValue) st.activeProviders
    { st with sendDisabled := true }
  generalize hsp : showPrompt (jsTrim st.promptValue) st.activeProviders
    { st with sendDisabled := true } = r at hs
  obtain ⟨r1, r2⟩ := r
  obtain ⟨h0, h1, h2, h3, -, -⟩ := hs
  simp only at h0 h1 h2 h3
  subst h0
  refine ⟨{ r1 with promptValue := "", invoked := r1.invoked
      ++ r1.activeProviders.map (fun p => IpcRequest.sendToAi p.name (jsTrim st.promptValue)) },
    h1, h2, by simp [h1, h3], ?_⟩
  simp only [startPrompt, h, ↓reduceIte, hsp, h1]

/-- One call of `sendPrompt` on a non-empty prompt, when every call it makes
settles: it returns, with a response collection that holds exactly the values
of the calls that succeeded, and it has sent one `'send-to-ai'` message per
active provider, followed by one `'analyze-delta'` message exactly when
`hasGeminiKey` is truthy and the collection has more than one entry. -/
theorem sendPrompt_cycle (ipc : IpcRequest → Except JSError JSVal) (order : List Provider)
    (st : Renderer) (hprompt : jsTrim st.promptValue ≠ "") (hnodup : st.activeProviders.Nodup)
    (hcover : ∀ p ∈ st.activeProviders, p ∈ order) :
    ∃ fs a st',
      sendPrompt ipc order st = (st', some a)
      ∧ a.phase = .done ∧ a.prompt = jsTrim st.promptValue ∧ a.responses = .obj fs
      ∧ (∀ p ∈ st.activeProviders,
          fs.lookup p.name = (ipc (.sendToAi p.name (jsTrim st.promptValue))).toOption)
      ∧ (∀ n, (∀ p ∈ st.activeProviders, p.name ≠ n) → fs.lookup n = none)
      ∧ fs.length = st.activeProviders.countP (callSucceeded ipc (jsTrim st.promptValue))
      ∧ st'.invoked = st.invoked
          ++ st.activeProviders.map (fun p => IpcRequest.sendToAi p.name (jsTrim st.promptValue))
          ++ (if st.hasGeminiKey.truthy = true ∧ 1 < fs.length
              then [IpcRequest.analyzeDelta (.obj fs)] else [])
      ∧ st'.sendDisabled = false ∧ st'.activeProviders = st.activeProviders
      ∧ st'.hasGeminiKey = st.hasGeminiKey := by
  obtain ⟨st1, e1, e2, e3, hstart⟩ := startPrompt_nonempty st hprompt
  by_cases hA : st.activeProviders = []
  · rw [if_pos hA] at hstart
    have hd := settleDelta_finishDispatch ipc
      ⟨jsTrim st.promptValue, .obj [], st.activeProviders, .dispatching⟩ st1
    refine ⟨[], _, _, ?_, hd.1, hd.2.2.1, hd.2.1, ?_, ?_, ?_, ?_, hd.2.2.2.2.1,
      hd.2.2.2.2.2.1.trans e1, hd.2.2.2.2.2.2.trans e2⟩
    · simp only [sendPrompt, hstart]
      rw [foldl_settleCall_idle _ _ _ _ (finishDispatch_phase _ _)]
    · simp [hA]
    · simp [List.lookup]
    · simp [hA]
    · rw [hd.2.2.2.1, e3, e2]
      simp [JSVal.keyCount]
  · rw [if_neg hA] at hstart
    obtain ⟨fs, a', st2, h1, h2, h3, h4, h5, h6, -, h8, h9, h10⟩ :=
      foldl_settleCall_all ipc order
        ⟨jsTrim st.promptValue, .obj [], st.activeProviders, .dispatching⟩ st1 []
        rfl rfl hA hnodup hcover (fun _ _ => rfl)
    have hd := settleDelta_finishDispatch ipc a' st2
    refine ⟨fs, _, _, ?_, hd.1, hd.2.2.1.trans h3, hd.2.1.trans h2, h8,
      fun n hn => (h9 n hn).trans rfl, by simpa using h10, ?_, hd.2.2.2.2.1,
      (hd.2.2.2.2.2.1.trans h4).trans e1, (hd.2.2.2.2.2.2.trans h5).trans e2⟩
    · simp only [sendPrompt, hstart, h1]
    · rw [hd.2.2.2.1, h6, e3, h5, e2, h2]
      simp [JSVal.keyCount]

theorem reportedFlag_eq (host : Host) (p : Provider) :
    reportedFlag host p = .ok (.bool (hasKey host p)) := by
  cases p <;> rfl

theorem loadedWith_spec (host : Host) (text : String) :
    checkAPIKeys (ipcInvoke host) initialRenderer = .ok (loadedWith host "")
    ∧ (loadedWith host text).promptValue = text
    ∧ (loadedWith host text).invoked = [IpcRequest.getApiKeys]
    ∧ (loadedWith host text).hasGeminiKey = .bool (hasKey host .gemini)
    ∧ (loadedWith host text).activeProviders
        = [Provider.chatgpt, Provider.claude, Provider.gemini].filter (hasKey host) := by
  have h1 : reportedFlag host .chatgpt = .ok (.bool (hasKey host .chatgpt)) := reportedFlag_eq _ _
  have h2 : reportedFlag host .claude = .ok (.bool (hasKey host .claude)) := reportedFlag_eq _ _
  have h3 : reportedFlag host .gemini = .ok (.bool (hasKey host .gemini)) := reportedFlag_eq _ _
  simp only [reportedFlag, Provider.name] at h1 h2 h3
  have hc : checkAPIKeys (ipcInvoke host) initialRenderer
      = .ok { initialRenderer with
          invoked := [IpcRequest.getApiKeys]
          hasGeminiKey := .bool (hasKey host .gemini)
          activeProviders := [Provider.chatgpt, Provider.claude, Provider.gemini].filter
            (hasKey host)
          sendDisabled := decide (([Provider.chatgpt, Provider.claude, Provider.gemini].filter
            (hasKey host)).length = 0)
          deltaPanel := if ([Provider.chatgpt, Provider.claude, Provider.gemini].filter
            (hasKey host)).length = 0 then .notice noKeysNotice else .initial } := by
    simp only [checkAPIKeys, ipcInvoke, ipcMain, markProvider, Provider.name, initialRenderer,
      bind, Except.bind, pure, Except.pure, h1, h2, h3, JSVal.truthy]
    rcases Bool.eq_false_or_eq_true (hasKey host .chatgpt) with hb1 | hb1 <;>
    rcases Bool.eq_false_or_eq_true (hasKey host .claude) with hb2 | hb2 <;>
    rcases Bool.eq_false_or_eq_true (hasKey host .gemini) with hb3 | hb3 <;>
    simp [setAdd, List.filter, hb1, hb2, hb3]
  simp only [loadedWith, hc]
  simp [initialRenderer]

/-- C3 fails as stated: with three active providers of which the ChatGPT
call fails and the other two succeed, the response collection built by
`sendPrompt` has two entries, not three. -/
theorem failed_call_leaves_no_entry_counterexample :
    ∃ a st',
      sendPrompt (ipcInvoke openaiDownHost) [.chatgpt, .claude, .gemini]
          (loadedWith openaiDownHost "hi") = (st', some a)
      ∧ a.phase = .done
      ∧ (loadedWith openaiDownHost "hi").activeProviders.length = 3
      ∧ a.responses.keyCount = 2
      ∧ a.responses.keyCount ≠ (loadedWith openaiDownHost "hi").activeProviders.length :=
  ⟨_, _, rfl, rfl, rfl, rfl, by decide⟩

/-- C3, amended. For every dispatch cycle on a non-empty prompt, once all
provider calls have settled (in any order), `sendPrompt` has returned and its
response collection has exactly one entry per active provider whose call
succeeded and none for a provider whose call failed, so its size is the
number of active providers whose call succeeded. -/
theorem response_count_eq_succeeded (ipc : IpcRequest → Except JSError JSVal)
    (order : List Provider) (st : Renderer) (hprompt : jsTrim st.promptValue ≠ "")
    (hnodup : st.activeProviders.Nodup) (hcover : ∀ p ∈ st.activeProviders, p ∈ order) :
    ∃ fs a st',
      sendPrompt ipc order st = (st', some a) ∧ a.phase = .done ∧ a.responses = .obj fs
      ∧ a.responses.keyCount
          = st.activeProviders.countP (callSucceeded ipc (jsTrim st.promptValue))
      ∧ ∀ p ∈ st.activeProviders,
          (fs.lookup p.name).isSome = callSucceeded ipc (jsTrim st.promptValue) p := by
  obtain ⟨fs, a, st', h1, h2, -, h4, h5, -, h7, -⟩ :=
    sendPrompt_cycle ipc order st hprompt hnodup hcover
  refine ⟨fs, a, st', h1, h2, h4, by rw [h4]; exact h7, ?_⟩
  intro p hp
  rw [h5 p hp]
  unfold callSucceeded
  cases ipc (.sendToAi p.name (jsTrim st.promptValue)) <;> rfl

/-- Witness of C3 amended: three active providers, the ChatGPT call fails. -/
theorem response_count_eq_succeeded_witness :
    ∃ fs a st',
      sendPrompt (ipcInvoke openaiDownHost) [.gemini, .chatgpt, .claude]
          (loadedWith openaiDownHost "hi") = (st', some a)
      ∧ a.phase = .done ∧ a.responses = .obj fs
      ∧ a.responses.keyCount = (loadedWith openaiDownHost "hi").activeProviders.countP
          (callSucceeded (ipcInvoke openaiDownHost)
            (jsTrim (loadedWith openaiDownHost "hi").promptValue))
      ∧ ∀ p ∈ (loadedWith openaiDownHost "hi").activeProviders,
          (fs.lookup p.name).isSome = callSucceeded (ipcInvoke openaiDownHost)
            (jsTrim (loadedWith openaiDownHost "hi").promptValue) p :=
  response_count_eq_succeeded (ipcInvoke openaiDownHost) [.gemini, .chatgpt, .claude]
    (loadedWith openaiDownHost "hi") (by decide) (by decide) (by decide)

/-- C5. For every set of active providers and every outcome of each call
(`ipc` is arbitrary), whatever the order in which the calls settle: a call of
`sendPrompt` on a non-empty prompt returns without an exception, and every
active provider whose call succeeded has exactly the value of its call under
its own key in the response collection. -/
theorem sendPrompt_records_each_success (ipc : IpcRequest → Except JSError JSVal)
    (order : List Provider) (st : Renderer) (hprompt : jsTrim st.promptValue ≠ "")
    (hnodup : st.activeProviders.Nodup) (hcover : ∀ p ∈ st.activeProviders, p ∈ order) :
    ∃ fs a st',
      sendPrompt ipc order st = (st', some a) ∧ a.phase = .done ∧ a.responses = .obj fs
      ∧ ∀ p ∈ st.activeProviders, ∀ v,
          ipc (.sendToAi p.name (jsTrim st.promptValue)) = .ok v → fs.lookup p.name = some v := by
  obtain ⟨fs, a, st', h1, h2, -, h4, h5, -⟩ :=
    sendPrompt_cycle ipc order st hprompt hnodup hcover
  refine ⟨fs, a, st', h1, h2, h4, ?_⟩
  intro p hp v hv
  rw [h5 p hp, hv]
  rfl

/-- Witness of C5: three active providers, the ChatGPT call fails. -/
theorem sendPrompt_records_each_success_witness :
    ∃ fs a st',
      sendPrompt (ipcInvoke openaiDownHost) [.claude, .gemini, .chatgpt]
          (loadedWith openaiDownHost "  hi ") = (st', some a)
      ∧ a.phase = .done ∧ a.responses = .obj fs
      ∧ ∀ p ∈ (loadedWith openaiDownHost "  hi ").activeProviders, ∀ v,
          ipcInvoke openaiDownHost
              (.sendToAi p.name (jsTrim (loadedWith openaiDownHost "  hi ").promptValue)) = .ok v
            → fs.lookup p.name = some v :=
  sendPrompt_records_each_success (ipcInvoke openaiDownHost) [.claude, .gemini, .chatgpt]
    (loadedWith openaiDownHost "  hi ") (by decide) (by decide) (by decide)

/-- C4 fails as stated: with the Gemini credential present and two providers
dispatched and settled, of which the ChatGPT call failed and the Gemini call
succeeded, `sendPrompt` returns without sending an `'analyze-delta'` message:
the failed call has no entry. -/
theorem delta_skipped_after_failure_counterexample :
    ∃ a st',
      sendPrompt (ipcInvoke twoKeysOpenaiDownHost) [.chatgpt, .gemini]
          (loadedWith twoKeysOpenaiDownHost "hi") = (st', some a)
      ∧ a.phase = .done
      ∧ reportedFlag twoKeysOpenaiDownHost .gemini = .ok (.bool true)
      ∧ (loadedWith twoKeysOpenaiDownHost "hi").activeProviders = [.chatgpt, .gemini]
      ∧ callSucceeded (ipcInvoke twoKeysOpenaiDownHost) "hi" .chatgpt = false
      ∧ callSucceeded (ipcInvoke twoKeysOpenaiDownHost) "hi" .gemini = true
      ∧ st'.invoked = [.getApiKeys, .sendToAi "chatgpt" "hi", .sendToAi "gemini" "hi"]
      ∧ ¬ ∃ r, IpcRequest.analyzeDelta r ∈ st'.invoked := by
  refine ⟨_, _, rfl, rfl, rfl, rfl, rfl, rfl, rfl, ?_⟩
  rintro ⟨r, hr⟩
  change IpcRequest.analyzeDelta r
    ∈ [IpcRequest.getApiKeys, .sendToAi "chatgpt" "hi", .sendToAi "gemini" "hi"] at hr
  simp at hr

/-- C4, amended. For every environment, transport and non-empty prompt, once
all provider calls have settled (in any order), `sendPrompt` has sent an
`'analyze-delta'` message if and only if the Gemini credential is present and
at least two providers with a credential had their call succeed. These are
the providers that have an entry in the response collection: a provider has
an entry exactly when it has a credential and its call succeeded (a provider
whose call failed has none), and the collection has no other entry, its size
being the number of such providers. -/
theorem delta_iff_key_and_two_successes (host : Host) (order : List Provider) (text : String)
    (hprompt : jsTrim text ≠ "") (hcover : ∀ p, hasKey host p = true → p ∈ order) :
    ∃ fs a st',
      sendPrompt (ipcInvoke host) order (loadedWith host text) = (st', some a)
      ∧ a.phase = .done ∧ a.responses = .obj fs
      ∧ ((∃ r, IpcRequest.analyzeDelta r ∈ st'.invoked)
          ↔ (reportedFlag host .gemini = .ok (.bool true)
              ∧ 2 ≤ [Provider.chatgpt, Provider.claude, Provider.gemini].countP
                  (fun p => hasKey host p && callSucceeded (ipcInvoke host) (jsTrim text) p)))
      ∧ ((∃ r, IpcRequest.analyzeDelta r ∈ st'.invoked)
          ↔ (reportedFlag host .gemini = .ok (.bool true) ∧ 2 ≤ fs.length))
      ∧ fs.length = [Provider.chatgpt, Provider.claude, Provider.gemini].countP
          (fun p => hasKey host p && callSucceeded (ipcInvoke host) (jsTrim text) p)
      ∧ (∀ p : Provider, hasKey host p = true ↔ reportedFlag host p = .ok (.bool true))
      ∧ ∀ p : Provider, (fs.lookup p.name).isSome = true
          ↔ (reportedFlag host p = .ok (.bool true)
              ∧ callSucceeded (ipcInvoke host) (jsTrim text) p = true) := by
  obtain ⟨-, hp, hinv, hgem, hact⟩ := loadedWith_spec host text
  have hmem : ∀ p, p ∈ (loadedWith host text).activeProviders ↔ hasKey host p = true := by
    intro p
    rw [hact]
    cases p <;> simp
  have hnodup : (loadedWith host text).activeProviders.Nodup := by
    rw [hact]
    exact List.Nodup.filter _ (by decide)
  obtain ⟨fs, a, st', h1, h2, -, h4, h5, h6, h7, h8, -⟩ :=
    sendPrompt_cycle (ipcInvoke host) order (loadedWith host text) (by rw [hp]; exact hprompt)
      hnodup (fun p hp' => hcover p ((hmem p).mp hp'))
  rw [hp] at h5 h7 h8
  have hcount : fs.length = [Provider.chatgpt, Provider.claude, Provider.gemini].countP
      (fun p => hasKey host p && callSucceeded (ipcInvoke host) (jsTrim text) p) := by
    rw [h7, hact, List.countP_filter]
    congr 1
    funext p
    exact Bool.and_comm _ _
  have hiff : (∃ r, IpcRequest.analyzeDelta r ∈ st'.invoked)
      ↔ (reportedFlag host .gemini = .ok (.bool true) ∧ 2 ≤ fs.length) := by
    rw [h8, hinv, hgem, reportedFlag_eq]
    by_cases hc : (JSVal.bool (hasKey host .gemini)).truthy = true ∧ 1 < fs.length
    · rw [if_pos hc]
      have hk : hasKey host .gemini = true := by simpa [JSVal.truthy] using hc.1
      constructor
      · intro _
        exact ⟨by rw [hk], hc.2⟩
      · intro _
        exact ⟨.obj fs, by simp⟩
    · rw [if_neg hc]
      constructor
      · rintro ⟨r, hr⟩
        simp at hr
      · rintro ⟨hk, hlen⟩
        exfalso
        apply hc
        have hk' : hasKey host .gemini = true := by simpa using hk
        exact ⟨by simp [JSVal.truthy, hk'], hlen⟩
  refine ⟨fs, a, st', h1, h2, h4, ?_, hiff, hcount, ?_, ?_⟩
  · rw [← hcount]
    exact hiff
  · intro p
    rw [reportedFlag_eq]
    cases hasKey host p <;> simp
  · intro p
    rw [reportedFlag_eq]
    by_cases hk : hasKey host p = true
    · rw [h5 p ((hmem p).mpr hk), hk]
      unfold callSucceeded
      cases ipcInvoke host (.sendToAi p.name (jsTrim text)) <;> simp [Except.toOption]
    · have hk' : hasKey host p = false := by simpa using hk
      have hnone : fs.lookup p.name = none := by
        apply h6
        intro q hq hname
        have := name_injective _ _ hname
        subst this
        exact hk ((hmem q).mp hq)
      simp [hnone, hk']

/-- Witness of C4 amended: three credentials, the ChatGPT call fails, the
other two succeed and the delta is requested. -/
theorem delta_iff_key_and_two_successes_witness :
    ∃ fs a st',
      sendPrompt (ipcInvoke openaiDownHost) [.gemini, .claude, .chatgpt]
          (loadedWith openaiDownHost "hi") = (st', some a)
      ∧ a.phase = .done ∧ a.responses = .obj fs
      ∧ ((∃ r, IpcRequest.analyzeDelta r ∈ st'.invoked)
          ↔ (reportedFlag openaiDownHost .gemini = .ok (.bool true)
              ∧ 2 ≤ [Provider.chatgpt, Provider.claude, Provider.gemini].countP
                  (fun p => hasKey openaiDownHost p
                    && callSucceeded (ipcInvoke openaiDownHost) (jsTrim "hi") p)))
      ∧ ((∃ r, IpcRequest.analyzeDelta r ∈ st'.invoked)
          ↔ (reportedFlag openaiDownHost .gemini = .ok (.bool true) ∧ 2 ≤ fs.length))
      ∧ fs.length = [Provider.chatgpt, Provider.claude, Provider.gemini].countP
          (fun p => hasKey openaiDownHost p
            && callSucceeded (ipcInvoke openaiDownHost) (jsTrim "hi") p)
      ∧ (∀ p : Provider, hasKey openaiDownHost p = true
          ↔ reportedFlag openaiDownHost p = .ok (.bool true))
      ∧ ∀ p : Provider, (fs.lookup p.name).isSome = true
          ↔ (reportedFlag openaiDownHost p = .ok (.bool true)
              ∧ callSucceeded (ipcInvoke openaiDownHost) (jsTrim "hi") p = true) :=
  delta_iff_key_and_two_successes openaiDownHost [.gemini, .claude, .chatgpt] "hi"
    (by decide) (fun p _ => by cases p <;> decide)

theorem Extends.refl_of (st st' : Renderer) (h1 : st'.activeProviders = st.activeProviders)
    (h2 : st'.hasGeminiKey = st.hasGeminiKey) (h3 : st'.invoked = st.invoked) :
    Extends st st' :=
  ⟨h1, h2, [], by simp [h3], by simp⟩

theorem finishDispatch_extends (a : Activation) (st : Renderer) :
    Extends st (finishDispatch a st).2 := by
  obtain ⟨-, -, h3, h4, -, h | h⟩ := finishDispatch_finished a st
  · exact ⟨h3, h4, [.analyzeDelta a.responses], h.2.2.2, by simp [Allowed, h.1]⟩
  · exact Extends.refl_of _ _ h3 h4 h.2.2.1

theorem Extends.trans_of (st st1 st2 : Renderer) (h1 : Extends st st1) (h2 : Extends st1 st2) :
    Extends st st2 := by
  obtain ⟨a1, g1, e1, i1, p1⟩ := h1
  obtain ⟨a2, g2, e2, i2, p2⟩ := h2
  refine ⟨a2.trans a1, g2.trans g1, e1 ++ e2, by rw [i2, i1, List.append_assoc], ?_⟩
  intro req hreq
  rcases List.mem_append.mp hreq with h | h
  · exact p1 req h
  · have := p2 req h
    rwa [a1, g1] at this

theorem startPrompt_extends (st : Renderer) : Extends st (startPrompt st).1 := by
  by_cases h : jsTrim st.promptValue = ""
  · simp only [startPrompt, h, ↓reduceIte]
    exact Extends.refl_of _ _ rfl rfl rfl
  · obtain ⟨st1, e1, e2, e3, hstart⟩ := startPrompt_nonempty st h
    have hst1 : Extends st st1 := by
      refine ⟨e1, e2, _, e3, ?_⟩
      intro req hreq
      obtain ⟨p, hp, rfl⟩ := List.mem_map.mp hreq
      exact ⟨p, hp, rfl⟩
    rw [hstart]
    split
    · exact Extends.trans_of _ _ _ hst1 (finishDispatch_extends _ _)
    · exact hst1

theorem settleCall_extends (ipc : IpcRequest → Except JSError JSVal) (p : Provider)
    (a : Activation) (st : Renderer) : Extends st (settleCall ipc p a st).2 := by
  unfold settleCall
  have hf := settleProvider_frame ipc p a st
  have hsp : Extends st (settleProvider ipc p a st).2 :=
    Extends.refl_of _ _ hf.1 hf.2.1 hf.2.2.1
  split
  · simp only
    split
    · exact Extends.trans_of _ _ _ hsp (finishDispatch_extends _ _)
    · exact hsp
  · exact Extends.refl_of _ _ rfl rfl rfl

theorem settleDelta_extends (ipc : IpcRequest → Except JSError JSVal) (a : Activation)
    (st : Renderer) : Extends st (settleDelta ipc a st).2 := by
  unfold settleDelta
  have hf := analyzeDeltaEnd_frame ipc a.responses st
  split
  · exact Extends.refl_of _ _ hf.1 hf.2.1 hf.2.2
  · exact Extends.refl_of _ _ rfl rfl rfl

theorem step_extends (ipc : IpcRequest → Except JSError JSVal) (w : Window) (e : Event) :
    Extends w.dom (step ipc w e).dom := by
  cases e with
  | input text => exact Extends.refl_of _ _ rfl rfl rfl
  | click =>
    simp only [step, launch]
    split
    · exact Extends.refl_of _ _ rfl rfl rfl
    · have := startPrompt_extends w.dom
      split <;> rename_i heq <;> rw [heq] at this <;> exact this
  | keydown key shiftKey =>
    simp only [step, launch]
    split
    · have := startPrompt_extends w.dom
      split <;> rename_i heq <;> rw [heq] at this <;> exact this
    · exact Extends.refl_of _ _ rfl rfl rfl
  | providerSettled cycle p =>
    simp only [step]
    split
    · exact Extends.refl_of _ _ rfl rfl rfl
    · exact settleCall_extends ipc p _ _
  | deltaSettled cycle =>
    simp only [step]
    split
    · exact Extends.refl_of _ _ rfl rfl rfl
    · exact settleDelta_extends ipc _ _

theorem run_extends (ipc : IpcRequest → Except JSError JSVal) (events : List Event) :
    ∀ w : Window, Extends w.dom (run ipc w events).dom := by
  induction events with
  | nil => intro w; exact Extends.refl_of _ _ rfl rfl rfl
  | cons e rest ih =>
    intro w
    exact Extends.trans_of _ _ _ (step_extends ipc w e) (ih (step ipc w e))

/-- C2. For every environment, transport and sequence of events of the
window after `checkAPIKeys` (any prompts, any order of settlements): every
`'send-to-ai'` message the window has sent names a provider that
`'get-api-keys'` reported available, an `'analyze-delta'` message is only
sent when Gemini was reported available, no request is handed to `fetch` for
a provider reported unavailable, and when no provider is available the window
sends no provider call and no delta call and nothing is fetched at all. -/
theorem no_dispatch_without_credential (host : Host) (events : List Event) :
    ∃ w0, loadWindow (ipcInvoke host) = .ok w0
      ∧ (∀ provider prompt,
          IpcRequest.sendToAi provider prompt ∈ (run (ipcInvoke host) w0 events).dom.invoked →
            ∃ p : Provider, provider = p.name ∧ reportedFlag host p = .ok (.bool true))
      ∧ (∀ responses,
          IpcRequest.analyzeDelta responses ∈ (run (ipcInvoke host) w0 events).dom.invoked →
            reportedFlag host .gemini = .ok (.bool true))
      ∧ (∀ p, reportedFlag host p = .ok (.bool false) →
          ∀ req ∈ (run (ipcInvoke host) w0 events).dom.invoked, fetchesOf host p req = [])
      ∧ ((∀ p, reportedFlag host p = .ok (.bool false)) →
          (∀ req ∈ (run (ipcInvoke host) w0 events).dom.invoked, req = IpcRequest.getApiKeys)
          ∧ (run (ipcInvoke host) w0 events).dom.invoked.flatMap
              (fun req => (ipcMain host req).fetched) = []) := by
  obtain ⟨hload, -, hinv, hgem, hact⟩ := loadedWith_spec host ""
  have hmem : ∀ p, p ∈ (loadedWith host "").activeProviders ↔ hasKey host p = true := by
    intro p
    rw [hact]
    cases p <;> simp
  refine ⟨⟨loadedWith host "", []⟩, ?_, ?_⟩
  · simp only [loadWindow, hload, bind, Except.bind, pure, Except.pure]
  obtain ⟨-, -, extra, hext, hallowed⟩ := run_extends (ipcInvoke host) events
    ⟨loadedWith host "", []⟩
  rw [hinv] at hext
  have hall : ∀ req ∈ (run (ipcInvoke host)
      ⟨loadedWith host "", []⟩ events).dom.invoked,
      Allowed (loadedWith host "").activeProviders (loadedWith host "").hasGeminiKey req := by
    intro req hreq
    rw [hext] at hreq
    rcases List.mem_append.mp hreq with h | h
    · simp only [List.mem_singleton] at h
      subst h
      trivial
    · exact hallowed req h
  have hsend : ∀ provider prompt,
      IpcRequest.sendToAi provider prompt ∈ (run (ipcInvoke host)
        ⟨loadedWith host "", []⟩ events).dom.invoked →
      ∃ p : Provider, provider = p.name ∧ hasKey host p = true := by
    intro provider prompt hreq
    obtain ⟨p, hp, hname⟩ := hall _ hreq
    exact ⟨p, hname, (hmem p).mp hp⟩
  have hdelta : ∀ responses,
      IpcRequest.analyzeDelta responses ∈ (run (ipcInvoke host)
        ⟨loadedWith host "", []⟩ events).dom.invoked →
      hasKey host .gemini = true := by
    intro responses hreq
    have := hall _ hreq
    simpa [Allowed, hgem, JSVal.truthy] using this
  have hnone : (∀ p, hasKey host p = false) →
      ∀ req ∈ (run (ipcInvoke host)
        ⟨loadedWith host "", []⟩ events).dom.invoked,
      req = IpcRequest.getApiKeys := by
    intro hno req hreq
    cases req with
    | getApiKeys => rfl
    | sendToAi provider prompt =>
      obtain ⟨p, -, hk⟩ := hsend provider prompt hreq
      rw [hno p] at hk
      exact absurd hk (by decide)
    | analyzeDelta responses =>
      have hk := hdelta responses hreq
      rw [hno .gemini] at hk
      exact absurd hk (by decide)
  refine ⟨?_, ?_, ?_, ?_⟩
  · intro provider prompt hreq
    obtain ⟨p, hname, hk⟩ := hsend provider prompt hreq
    exact ⟨p, hname, by rw [reportedFlag_eq, hk]⟩
  · intro responses hreq
    rw [reportedFlag_eq, hdelta responses hreq]
  · intro p hflag req hreq
    have hk : hasKey host p = false := by
      rw [reportedFlag_eq] at hflag
      simpa using hflag
    cases req with
    | getApiKeys => rfl
    | sendToAi provider prompt =>
      obtain ⟨q, hname, hq⟩ := hsend provider prompt hreq
      have hne : provider ≠ p.name := by
        intro h
        have := name_injective _ _ (hname.symm.trans h)
        subst this
        rw [hk] at hq
        exact absurd hq (by decide)
      simp [fetchesOf, hne]
    | analyzeDelta responses =>
      have hg := hdelta responses hreq
      have hne : p ≠ .gemini := by
        intro h
        subst h
        rw [hk] at hg
        exact absurd hg (by decide)
      simp [fetchesOf, hne]
  · intro hno
    have hno' : ∀ p, hasKey host p = false := by
      intro p
      have := hno p
      rw [reportedFlag_eq] at this
      simpa using this
    refine ⟨hnone hno', ?_⟩
    rw [List.flatMap_eq_nil_iff]
    intro req hreq
    rw [hnone hno' req hreq]
    rfl

theorem run_settlements (ipc : IpcRequest → Except JSError JSVal) (order : List Provider) :
    ∀ (a : Activation) (st : Renderer),
      run ipc ⟨st, [a]⟩ (order.map (Event.providerSettled 0))
        = ⟨(order.foldl (fun acc p => settleCall ipc p acc.1 acc.2) (a, st)).2,
           [(order.foldl (fun acc p => settleCall ipc p acc.1 acc.2) (a, st)).1]⟩ := by
  induction order with
  | nil => intro a st; rfl
  | cons p rest ih =>
    intro a st
    simp only [List.map_cons, run, List.foldl_cons]
    have hstep : step ipc ⟨st, [a]⟩ (.providerSettled 0 p)
        = ⟨(settleCall ipc p a st).2, [(settleCall ipc p a st).1]⟩ := by
      simp [step]
    rw [hstep]
    exact ih _ _

/-- The step function and `sendPrompt` agree on one dispatch cycle: from a
window with no call of `sendPrompt` so far, pressing Enter, letting the
provider calls settle in the order `order` and then the delta call, leaves
the page and the local state that `sendPrompt` computes. -/
theorem run_single_cycle (ipc : IpcRequest → Except JSError JSVal) (order : List Provider)
    (st : Renderer) :
    run ipc ⟨st, []⟩
        (Event.keydown "Enter" false :: (order.map (Event.providerSettled 0)
          ++ [Event.deltaSettled 0]))
      = ⟨(sendPrompt ipc order st).1, (sendPrompt ipc order st).2.toList⟩ := by
  simp only [run, List.foldl_cons, List.foldl_append, List.foldl_nil]
  have hlaunch : step ipc ⟨st, []⟩ (.keydown "Enter" false) = launch ⟨st, []⟩ := by
    simp [step]
  rw [hlaunch]
  unfold launch sendPrompt
  rcases hsp : startPrompt st with ⟨st1, _ | a⟩
  · simp only [List.nil_append]
    have hidle : ∀ events : List Event,
        (∀ e ∈ events, ∃ p, e = Event.providerSettled 0 p) →
        List.foldl (step ipc) ⟨st1, []⟩ events = ⟨st1, []⟩ := by
      intro events
      induction events with
      | nil => intro _; rfl
      | cons e rest ih =>
        intro h
        obtain ⟨p, rfl⟩ := h e (by simp)
        simp only [List.foldl_cons]
        have : step ipc ⟨st1, []⟩ (.providerSettled 0 p) = ⟨st1, []⟩ := by simp [step]
        rw [this]
        exact ih (fun e he => h e (by simp [he]))
    rw [hidle _ (by simp)]
    simp [step]
  · simp only [List.nil_append]
    have h := run_settlements ipc order a st1
    simp only [run] at h
    rw [h]
    simp [step]

theorem click_while_disabled (ipc : IpcRequest → Except JSError JSVal) (w : Window)
    (h : w.dom.sendDisabled = true) : step ipc w .click = w := by
  simp [step, h]

/-- C9. The window with a ChatGPT key at the events: type `a`, press Enter,
type `b`, press Enter again before the first call has settled. After the
first Enter one call of `sendPrompt` is in progress and the send button is
disabled; the second Enter starts a second call, which sends a second
`'send-to-ai'` message, so two dispatch cycles are in progress at once. A
click on the disabled button at the same point starts nothing. -/
theorem enter_starts_overlapping_cycle :
    ∃ w0, loadWindow (ipcInvoke openaiOnlyHost) = .ok w0
      ∧ (run (ipcInvoke openaiOnlyHost) w0 [.input "a", .keydown "Enter" false]).inProgress = 1
      ∧ (run (ipcInvoke openaiOnlyHost) w0
          [.input "a", .keydown "Enter" false]).dom.sendDisabled = true
      ∧ (run (ipcInvoke openaiOnlyHost) w0
          [.input "a", .keydown "Enter" false, .input "b", .keydown "Enter" false]).inProgress = 2
      ∧ (run (ipcInvoke openaiOnlyHost) w0
          [.input "a", .keydown "Enter" false, .input "b", .keydown "Enter" false]).dom.invoked
        = [.getApiKeys, .sendToAi "chatgpt" "a", .sendToAi "chatgpt" "b"]
      ∧ (run (ipcInvoke openaiOnlyHost) w0
          [.input "a", .keydown "Enter" false, .input "b", .click]).inProgress = 1
      ∧ (run (ipcInvoke openaiOnlyHost) w0
          [.input "a", .keydown "Enter" false, .input "b", .click]).dom.invoked
        = [.getApiKeys, .sendToAi "chatgpt" "a"] :=
  ⟨_, rfl, rfl, rfl, rfl, rfl, rfl, rfl⟩

end ChatDelta
